import Mathlib

/-!
Verification development for the soy template parser (package `parse`,
file `parse.go`).  The parser is embedded shallowly: the Go `tree` struct
becomes a Lean structure, the panic/recover error discipline becomes
`Except String`, and every loop or recursive procedure takes an explicit
fuel argument (the Go code recurses on the token stream, which the Lean
definitions mirror structurally on fuel).  The external token source
(lexer) is out of scope in the repository; tokens are consumed from a
list, and the few lexer-owned helpers the parser calls are modelled from
the specification and marked as such.
-/

namespace SoyParse

/-- Token kinds produced by the external token source.  The constructor
set mirrors the `itemType` constants referenced by `parse.go`. -/
inductive itemType where
  | itemError
  | itemEOF
  | itemText
  | itemComment
  | itemLeftDelim
  | itemRightDelim
  | itemRightDelimEnd
  | itemSoyDocStart
  | itemSoyDocParam
  | itemSoyDocOptionalParam
  | itemSoyDocEnd
  | itemNamespace
  | itemTemplate
  | itemTemplateEnd
  | itemIf
  | itemElseif
  | itemElse
  | itemIfEnd
  | itemMsg
  | itemMsgEnd
  | itemForeach
  | itemFor
  | itemIfempty
  | itemForeachEnd
  | itemForEnd
  | itemSwitch
  | itemCase
  | itemDefault
  | itemSwitchEnd
  | itemCall
  | itemCallEnd
  | itemParam
  | itemParamEnd
  | itemLet
  | itemLetEnd
  | itemLiteral
  | itemLiteralEnd
  | itemCss
  | itemLog
  | itemLogEnd
  | itemDebugger
  | itemAlias
  | itemPrint
  | itemIdent
  | itemDollarIdent
  | itemDotIdent
  | itemQuestionDotIdent
  | itemDotIndex
  | itemQuestionDotIndex
  | itemQuestionKey
  | itemNull
  | itemBool
  | itemInteger
  | itemFloat
  | itemString
  | itemLeftParen
  | itemRightParen
  | itemLeftBracket
  | itemRightBracket
  | itemColon
  | itemComma
  | itemEquals
  | itemPipe
  | itemNot
  | itemNegate
  | itemMul
  | itemDiv
  | itemMod
  | itemAdd
  | itemSub
  | itemEq
  | itemNotEq
  | itemGt
  | itemGte
  | itemLt
  | itemLte
  | itemOr
  | itemAnd
  | itemElvis
  | itemTernIf
  | itemNil
  | itemSpace
  | itemTab
  | itemNewline
  | itemCarriageReturn
  | itemLeftBrace
  | itemRightBrace
  deriving DecidableEq, Repr

open itemType

/-- A token: kind, byte offset into the input, literal text. -/
structure item where
  typ : itemType
  pos : Nat
  val : String
  deriving DecidableEq, Repr

/-- Modelled from the spec: a literal value held by the caller-supplied
globals table (`data.Value` lives in the external `data` package).  The
parser only looks values up and stores them, so only the constructors
matter, not any operations. -/
inductive Value where
  | nullV
  | boolV (b : Bool)
  | intV (i : Int)
  | floatV (raw : String)
  | strV (s : String)
  | listV (xs : List Value)
  | mapV (entries : List (String × Value))

/-- Autoescape modes (`AutoescapeType` in the AST package). -/
inductive AutoescapeType where
  | AutoescapeUnspecified
  | AutoescapeContextual
  | AutoescapeOn
  | AutoescapeOff
  deriving DecidableEq, Repr

open AutoescapeType

/-- The AST node family.  One constructor per node type constructed by
`parse.go`; each carries its source position first, mirroring the Go
structs.  Binary operator nodes carry the operator name string that the
Go `op` helper stores in the embedded `binaryOpNode`. -/
inductive Node where
  | ListNode (pos : Nat) (nodes : List Node)
  | RawTextNode (pos : Nat) (text : String)
  | NamespaceNode (pos : Nat) (name : String) (autoescape : AutoescapeType)
  | TemplateNode (pos : Nat) (name : String) (body : Node)
      (autoescape : AutoescapeType) (private' : Bool)
  | IfNode (pos : Nat) (conds : List Node)
  | IfCondNode (pos : Nat) (cond : Option Node) (body : Node)
  | ForNode (pos : Nat) (varName : String) (list : Node) (body : Node)
      (ifEmpty : Option Node)
  | SwitchNode (pos : Nat) (value : Node) (cases : List Node)
  | SwitchCaseNode (pos : Nat) (values : List Node) (body : Node)
  | CallNode (pos : Nat) (name : String) (allData : Bool)
      (dataNode : Option Node) (params : List Node)
  | CallParamValueNode (pos : Nat) (key : String) (value : Node)
  | CallParamContentNode (pos : Nat) (key : String) (content : Node)
  | LetValueNode (pos : Nat) (name : String) (expr : Node)
  | LetContentNode (pos : Nat) (name : String) (body : Node)
  | MsgNode (pos : Nat) (desc : String) (body : Node)
  | CssNode (pos : Nat) (expr : Option Node) (suffix : String)
  | LogNode (pos : Nat) (body : Node)
  | DebuggerNode (pos : Nat)
  | SoyDocNode (pos : Nat) (params : List Node)
  | SoyDocParamNode (pos : Nat) (name : String) (optional : Bool)
  | PrintNode (pos : Nat) (arg : Node) (directives : List Node)
  | PrintDirectiveNode (pos : Nat) (name : String) (args : List Node)
  | NullNode (pos : Nat)
  | BoolNode (pos : Nat) (true' : Bool)
  | IntNode (pos : Nat) (value : Int)
  | FloatNode (pos : Nat) (raw : String)
  | StringNode (pos : Nat) (value : String)
  | ListLiteralNode (pos : Nat) (items : List Node)
  | MapLiteralNode (pos : Nat) (items : List (String × Node))
  | DataRefNode (pos : Nat) (key : String) (access : List Node)
  | DataRefKeyNode (pos : Nat) (nullSafe : Bool) (key : String)
  | DataRefIndexNode (pos : Nat) (nullSafe : Bool) (index : Int)
  | DataRefExprNode (pos : Nat) (nullSafe : Bool) (arg : Node)
  | GlobalNode (pos : Nat) (name : String) (value : Value)
  | FunctionNode (pos : Nat) (name : String) (args : List Node)
  | NotNode (pos : Nat) (arg : Node)
  | NegateNode (pos : Nat) (arg : Node)
  | MulNode (name : String) (pos : Nat) (arg1 arg2 : Node)
  | DivNode (name : String) (pos : Nat) (arg1 arg2 : Node)
  | ModNode (name : String) (pos : Nat) (arg1 arg2 : Node)
  | AddNode (name : String) (pos : Nat) (arg1 arg2 : Node)
  | SubNode (name : String) (pos : Nat) (arg1 arg2 : Node)
  | EqNode (name : String) (pos : Nat) (arg1 arg2 : Node)
  | NotEqNode (name : String) (pos : Nat) (arg1 arg2 : Node)
  | GtNode (name : String) (pos : Nat) (arg1 arg2 : Node)
  | GteNode (name : String) (pos : Nat) (arg1 arg2 : Node)
  | LtNode (name : String) (pos : Nat) (arg1 arg2 : Node)
  | LteNode (name : String) (pos : Nat) (arg1 arg2 : Node)
  | OrNode (name : String) (pos : Nat) (arg1 arg2 : Node)
  | AndNode (name : String) (pos : Nat) (arg1 arg2 : Node)
  | ElvisNode (name : String) (pos : Nat) (arg1 arg2 : Node)
  | TernNode (pos : Nat) (cond tbranch fbranch : Node)

open Node

/-- The file-level result (`SoyFileNode`). -/
structure SoyFileNode where
  Name : String
  Text : String
  Body : List Node

/-- Modelled from the spec: every AST node is tagged with its source
position (the `Position()` method of the node package). -/
def Node.Position : Node → Nat
  | ListNode p _ => p
  | RawTextNode p _ => p
  | NamespaceNode p _ _ => p
  | TemplateNode p _ _ _ _ => p
  | IfNode p _ => p
  | IfCondNode p _ _ => p
  | ForNode p _ _ _ _ => p
  | SwitchNode p _ _ => p
  | SwitchCaseNode p _ _ => p
  | CallNode p _ _ _ _ => p
  | CallParamValueNode p _ _ => p
  | CallParamContentNode p _ _ => p
  | LetValueNode p _ _ => p
  | LetContentNode p _ _ => p
  | MsgNode p _ _ => p
  | CssNode p _ _ => p
  | LogNode p _ => p
  | DebuggerNode p => p
  | SoyDocNode p _ => p
  | SoyDocParamNode p _ _ => p
  | PrintNode p _ _ => p
  | PrintDirectiveNode p _ _ => p
  | NullNode p => p
  | BoolNode p _ => p
  | IntNode p _ => p
  | FloatNode p _ => p
  | StringNode p _ => p
  | ListLiteralNode p _ => p
  | MapLiteralNode p _ => p
  | DataRefNode p _ _ => p
  | DataRefKeyNode p _ _ => p
  | DataRefIndexNode p _ _ => p
  | DataRefExprNode p _ _ => p
  | GlobalNode p _ _ => p
  | FunctionNode p _ _ => p
  | NotNode p _ => p
  | NegateNode p _ => p
  | MulNode _ p _ _ => p
  | DivNode _ p _ _ => p
  | ModNode _ p _ _ => p
  | AddNode _ p _ _ => p
  | SubNode _ p _ _ => p
  | EqNode _ p _ _ => p
  | NotEqNode _ p _ _ => p
  | GtNode _ p _ _ => p
  | GteNode _ p _ _ => p
  | LtNode _ p _ _ => p
  | LteNode _ p _ _ => p
  | OrNode _ p _ _ => p
  | AndNode _ p _ _ => p
  | ElvisNode _ p _ _ => p
  | TernNode p _ _ _ => p

/-- The Go type name of a node, as printed by the `%T` format verb in
error messages (`parseMapLiteral`). -/
def goTypeName : Node → String
  | ListNode _ _ => "*parse.ListNode"
  | RawTextNode _ _ => "*parse.RawTextNode"
  | NamespaceNode _ _ _ => "*parse.NamespaceNode"
  | TemplateNode _ _ _ _ _ => "*parse.TemplateNode"
  | IfNode _ _ => "*parse.IfNode"
  | IfCondNode _ _ _ => "*parse.IfCondNode"
  | ForNode _ _ _ _ _ => "*parse.ForNode"
  | SwitchNode _ _ _ => "*parse.SwitchNode"
  | SwitchCaseNode _ _ _ => "*parse.SwitchCaseNode"
  | CallNode _ _ _ _ _ => "*parse.CallNode"
  | CallParamValueNode _ _ _ => "*parse.CallParamValueNode"
  | CallParamContentNode _ _ _ => "*parse.CallParamContentNode"
  | LetValueNode _ _ _ => "*parse.LetValueNode"
  | LetContentNode _ _ _ => "*parse.LetContentNode"
  | MsgNode _ _ _ => "*parse.MsgNode"
  | CssNode _ _ _ => "*parse.CssNode"
  | LogNode _ _ => "*parse.LogNode"
  | DebuggerNode _ => "*parse.DebuggerNode"
  | SoyDocNode _ _ => "*parse.SoyDocNode"
  | SoyDocParamNode _ _ _ => "*parse.SoyDocParamNode"
  | PrintNode _ _ _ => "*parse.PrintNode"
  | PrintDirectiveNode _ _ _ => "*parse.PrintDirectiveNode"
  | NullNode _ => "*parse.NullNode"
  | BoolNode _ _ => "*parse.BoolNode"
  | IntNode _ _ => "*parse.IntNode"
  | FloatNode _ _ => "*parse.FloatNode"
  | StringNode _ _ => "*parse.StringNode"
  | ListLiteralNode _ _ => "*parse.ListLiteralNode"
  | MapLiteralNode _ _ => "*parse.MapLiteralNode"
  | DataRefNode _ _ _ => "*parse.DataRefNode"
  | DataRefKeyNode _ _ _ => "*parse.DataRefKeyNode"
  | DataRefIndexNode _ _ _ => "*parse.DataRefIndexNode"
  | DataRefExprNode _ _ _ => "*parse.DataRefExprNode"
  | GlobalNode _ _ _ => "*parse.GlobalNode"
  | FunctionNode _ _ _ => "*parse.FunctionNode"
  | NotNode _ _ => "*parse.NotNode"
  | NegateNode _ _ => "*parse.NegateNode"
  | MulNode _ _ _ _ => "*parse.MulNode"
  | DivNode _ _ _ _ => "*parse.DivNode"
  | ModNode _ _ _ _ => "*parse.ModNode"
  | AddNode _ _ _ _ => "*parse.AddNode"
  | SubNode _ _ _ _ => "*parse.SubNode"
  | EqNode _ _ _ _ => "*parse.EqNode"
  | NotEqNode _ _ _ _ => "*parse.NotEqNode"
  | GtNode _ _ _ _ => "*parse.GtNode"
  | GteNode _ _ _ _ => "*parse.GteNode"
  | LtNode _ _ _ _ => "*parse.LtNode"
  | LteNode _ _ _ _ => "*parse.LteNode"
  | OrNode _ _ _ _ => "*parse.OrNode"
  | AndNode _ _ _ _ => "*parse.AndNode"
  | ElvisNode _ _ _ _ => "*parse.ElvisNode"
  | TernNode _ _ _ _ => "*parse.TernNode"

/-! ## String and lookup helpers -/

/-- Modelled from the spec: the `%q` format verb used in error messages
(quotes an identifier; the names involved need no escaping). -/
def goQuote (s : String) : String := "\"" ++ s ++ "\""

/-- `inStringSlice` from `parse.go`. -/
def inStringSlice (x : String) (group : List String) : Bool :=
  match group with
  | [] => false
  | g :: rest => if g = x then true else inStringSlice x rest

/-- `isOneOf` from `parse.go`. -/
def isOneOf (tocheck : itemType) (against : List itemType) : Bool :=
  match against with
  | [] => false
  | g :: rest => if tocheck = g then true else isOneOf tocheck rest

/-- `allSpace` from `parse.go`: every rune is whitespace. -/
def allSpace (s : String) : Bool := s.toList.all Char.isWhitespace

/-- Go map read `m[k]`: the most recent binding for `k`, if any. -/
def lookupKey (m : List (String × α)) (k : String) : Option α :=
  match m with
  | [] => none
  | (k', v) :: rest => if k' = k then some v else lookupKey rest k

/-- Go map write `m[k] = v`: replace the binding in place or append. -/
def mapInsert (m : List (String × α)) (k : String) (v : α) : List (String × α) :=
  match m with
  | [] => [(k, v)]
  | (k', v') :: rest => if k' = k then (k, v) :: rest else (k', v') :: mapInsert rest k v

/-- `strconv.ParseInt(s, base, 64)`: optional sign, then digits of the
given base; empty/invalid digits and 64-bit overflow are errors.  (With
an explicit base, Go does not accept a `0x` prefix.) -/
def digitVal (base : Nat) (c : Char) : Option Nat :=
  let v :=
    if '0' ≤ c ∧ c ≤ '9' then some (c.toNat - '0'.toNat)
    else if 'a' ≤ c ∧ c ≤ 'f' then some (c.toNat - 'a'.toNat + 10)
    else if 'A' ≤ c ∧ c ≤ 'F' then some (c.toNat - 'A'.toNat + 10)
    else none
  match v with
  | some d => if d < base then some d else none
  | none => none

def foldDigits (base : Nat) : List Char → Nat → Option Nat
  | [], acc => some acc
  | c :: cs, acc =>
    match digitVal base c with
    | some d => foldDigits base cs (acc * base + d)
    | none => none

def parseGoInt (s : String) (base : Nat) : Except String Int :=
  let cs := s.toList
  let signed : Bool × List Char :=
    match cs with
    | '-' :: r => (true, r)
    | '+' :: r => (false, r)
    | r => (false, r)
  match signed.2 with
  | [] => .error ("strconv.ParseInt: parsing " ++ goQuote s ++ ": invalid syntax")
  | ds =>
    match foldDigits base ds 0 with
    | none => .error ("strconv.ParseInt: parsing " ++ goQuote s ++ ": invalid syntax")
    | some v =>
      if (if signed.1 then v ≤ 2 ^ 63 else v < 2 ^ 63) then
        .ok (if signed.1 then -(v : Int) else (v : Int))
      else .error ("strconv.ParseInt: parsing " ++ goQuote s ++ ": value out of range")

/-- Shared unescaping for quoted literals: handles the usual backslash
escapes, rejects dangling or unknown ones. -/
def unquoteChars : List Char → Option (List Char)
  | [] => some []
  | '\\' :: rest =>
    match rest with
    | [] => none
    | e :: rest' =>
      let c? : Option Char :=
        match e with
        | 'n' => some '\n'
        | 't' => some '\t'
        | 'r' => some '\r'
        | '\\' => some '\\'
        | '\'' => some '\''
        | '"' => some '"'
        | _ => none
      match c?, unquoteChars rest' with
      | some c, some r => some (c :: r)
      | _, _ => none
  | c :: rest =>
    match unquoteChars rest with
    | some r => some (c :: r)
    | none => none

def unquoteWith (q : Char) (s : String) : Except String String :=
  let cs := s.toList
  if 2 ≤ cs.length ∧ cs.head? = some q ∧ cs.getLast? = some q then
    match unquoteChars (cs.drop 1).dropLast with
    | some r => .ok (String.mk r)
    | none => .error ("invalid quoted string: " ++ s)
  else .error ("invalid quoted string: " ++ s)

/-- Modelled from the spec: `unquoteString` (missing lexer/string helper
of the parse package) decodes a single-quoted soy string literal. -/
def unquoteString (s : String) : Except String String := unquoteWith '\'' s

/-- Modelled from the spec: `strconv.Unquote` applied to attribute
values, which the token source delivers as double-quoted strings. -/
def goUnquote (s : String) : Except String String := unquoteWith '"' s

/-- Modelled from the spec: `rawtext` (missing helper of the parse
package) normalizes raw template text: a leading/trailing whitespace run
is dropped when the neighbouring content is a comment (the boolean
flags) or when the run contains a newline; the result may be empty. -/
def rawtext (s : String) (trimBefore trimAfter : Bool) : String :=
  let l := s.toList
  let lead := l.takeWhile Char.isWhitespace
  let l1 := if trimBefore ∨ lead.contains '\n' then l.drop lead.length else l
  let rev := l1.reverse
  let trail := rev.takeWhile Char.isWhitespace
  let l2 := if trimAfter ∨ trail.contains '\n' then rev.drop trail.length else rev
  String.mk l2.reverse

/-- Modelled from the spec: the token source tracks byte positions and
reports 1-based line numbers (`lexer.lineNumber`). -/
def countNewlines : List Char → Nat
  | [] => 0
  | c :: cs => (if c = '\n' then 1 else 0) + countNewlines cs

def lineNumber (text : String) (pos : Nat) : Nat :=
  1 + countNewlines (text.toList.take pos)

/-- Modelled from the spec: `lexer.columnNumber`, the offset from the
last newline before `pos` (1-based from start of line). -/
def lastNewlineIdx : List Char → Nat → Option Nat
  | [], _ => none
  | c :: cs, i =>
    match lastNewlineIdx cs (i + 1) with
    | some j => some j
    | none => if c = '\n' then some i else none

def columnNumber (text : String) (pos : Nat) : Nat :=
  match lastNewlineIdx (text.toList.take pos) 0 with
  | some j => pos - j
  | none => pos + 1

/-- Modelled from the spec: `item.String()`, how a token prints inside
an error message. -/
def showItem (i : item) : String :=
  if i.typ = itemEOF then "EOF" else i.val

/-- Modelled from the spec: `itemType.String()`, how a token kind prints
inside an `expect` error message. -/
def showType (t : itemType) : String := reprStr t

/-! ## Operator tables (`parse.go`) -/

/-- The `precedence` map; Go map reads default to 0 for absent keys. -/
def precedence : itemType → Nat
  | itemNot => 6
  | itemNegate => 6
  | itemMul => 5
  | itemDiv => 5
  | itemMod => 5
  | itemAdd => 4
  | itemSub => 4
  | itemEq => 3
  | itemNotEq => 3
  | itemGt => 3
  | itemGte => 3
  | itemLt => 3
  | itemLte => 3
  | itemOr => 2
  | itemAnd => 1
  | itemElvis => 0
  | _ => 0

def isBinaryOp (typ : itemType) : Bool :=
  match typ with
  | itemMul | itemDiv | itemMod
  | itemAdd | itemSub
  | itemEq | itemNotEq | itemGt | itemGte | itemLt | itemLte
  | itemOr | itemAnd | itemElvis => true
  | _ => false

def isUnaryOp (t : item) : Bool :=
  match t.typ with
  | itemNot | itemNegate => true
  | _ => false

def isValue (t : item) : Bool :=
  match t.typ with
  | itemNull | itemBool | itemInteger | itemFloat | itemDollarIdent | itemString => true
  | itemIdent => true
  | itemLeftBracket => true
  | _ => false

/-- `specialChars` map from `parse.go`. -/
def specialChars : itemType → String
  | itemNil => ""
  | itemSpace => " "
  | itemTab => "\t"
  | itemNewline => "\n"
  | itemCarriageReturn => "\r"
  | itemLeftBrace => "\x7b"
  | itemRightBrace => "\x7d"
  | _ => ""

/-- `newBinaryOpNode` from `parse.go` (the `op` helper stores the
operator name in the shared `binaryOpNode`). -/
def newBinaryOpNode (t : item) (n1 n2 : Node) : Node :=
  match t.typ with
  | itemMul => MulNode "*" t.pos n1 n2
  | itemDiv => DivNode "/" t.pos n1 n2
  | itemMod => ModNode "%" t.pos n1 n2
  | itemAdd => AddNode "+" t.pos n1 n2
  | itemSub => SubNode "-" t.pos n1 n2
  | itemEq => EqNode "=" t.pos n1 n2
  | itemNotEq => NotEqNode "!=" t.pos n1 n2
  | itemGt => GtNode ">" t.pos n1 n2
  | itemGte => GteNode ">=" t.pos n1 n2
  | itemLt => LtNode "<" t.pos n1 n2
  | itemLte => LteNode "<=" t.pos n1 n2
  | itemOr => OrNode "or" t.pos n1 n2
  | itemAnd => AndNode "and" t.pos n1 n2
  | itemElvis => ElvisNode "?:" t.pos n1 n2
  | _ => NullNode t.pos

/-- `newUnaryOpNode` from `parse.go`. -/
def newUnaryOpNode (t : item) (n1 : Node) : Node :=
  match t.typ with
  | itemNot => NotNode t.pos n1
  | itemNegate => NegateNode t.pos n1
  | _ => NullNode t.pos

/-- Modelled from the spec: `newText` (node package) wraps literal text. -/
def newText (pos : Nat) (s : String) : Node := RawTextNode pos s

/-! ## Parser state and plumbing (`tree` and its helper methods) -/

/-- The Go `tree` struct: per-parse state.  The `lex` field becomes the
`rest` list of tokens yet to be delivered by the token source; `token`
and `peekCount` model the two-slot lookahead buffer exactly.  The field
`nspace` is the Go field `namespace` (a Lean keyword). -/
structure tree where
  name : String
  text : String
  nspace : String
  aliases : List (String × String)
  globals : List (String × Value)
  tok0 : item
  tok1 : item
  peekCount : Nat
  rest : List item

/-- Parser computations: state plus abort-with-message (the Go
panic/recover discipline). -/
abbrev PM (α : Type) : Type := tree → Except String (α × tree)

def pmPure (a : α) : PM α := fun t => .ok (a, t)

def pmBind (m : PM α) (g : α → PM β) : PM β := fun t =>
  match m t with
  | .ok (a, t') => g a t'
  | .error e => .error e

instance : Monad PM where
  pure := pmPure
  bind := pmBind

/-- Fuel exhaustion (an artifact of the embedding, not of the source;
the concrete runs below never reach it). -/
def oof : PM α := fun _ => .error "out of fuel"

/-- The token the source produces at end of input. -/
def eofItem (t : tree) : item := { typ := itemEOF, pos := t.text.length, val := "" }

/-- `(t *tree) next()`. -/
def nextRaw (t : tree) : item × tree :=
  if t.peekCount = 2 then (t.tok1, { t with peekCount := 1 })
  else if t.peekCount = 1 then (t.tok0, { t with peekCount := 0 })
  else
    match t.rest with
    | tok :: rs => (tok, { t with tok0 := tok, rest := rs })
    | [] => (eofItem t, { t with tok0 := eofItem t })

def nextPM : PM item := fun t => .ok (nextRaw t)

/-- `(t *tree) backup()`. -/
def backupPM : PM Unit := fun t => .ok ((), { t with peekCount := t.peekCount + 1 })

/-- `(t *tree) backup2(t1)`. -/
def backup2PM (t1 : item) : PM Unit := fun t =>
  .ok ((), { t with tok1 := t1, peekCount := 2 })

/-- `(t *tree) peek()`. -/
def peekRaw (t : tree) : item × tree :=
  if t.peekCount > 0 then ((if t.peekCount = 2 then t.tok1 else t.tok0), t)
  else
    match t.rest with
    | tok :: rs => (tok, { t with tok0 := tok, peekCount := 1, rest := rs })
    | [] => (eofItem t, { t with tok0 := eofItem t, peekCount := 1 })

def peekPM : PM item := fun t => .ok (peekRaw t)

/-- The token `errorf` reports positions from: `t.token[0]`, or
`t.token[t.peekCount-1]` when tokens have been pushed back. -/
def activeTok (t : tree) : item :=
  if t.peekCount = 2 then t.tok1 else t.tok0

/-- The single positioned error value `errorf` builds. -/
def errMsg (t : tree) (msg : String) : String :=
  let tok := activeTok t
  "template " ++ t.name ++ ":" ++ toString (lineNumber t.text tok.pos) ++ ":" ++
    toString (columnNumber t.text tok.pos) ++ ": " ++ msg

/-- `(t *tree) errorf(...)`: format and abort. -/
def errorfPM (msg : String) : PM α := fun t => .error (errMsg t msg)

/-- `(t *tree) error(err)`. -/
def errorPM (err : String) : PM α := errorfPM err

/-- `(t *tree) unexpected(token, context)`. -/
def unexpectedPM (token : item) (context : String) : PM α := fun t =>
  if token.typ = itemError then .error (errMsg t ("lexical error: " ++ showItem token))
  else .error (errMsg t ("unexpected " ++ showItem token ++ " in " ++ context))

/-- `(t *tree) expect(expected, context)`. -/
def expectPM (expected : itemType) (context : String) : PM item := do
  let token ← nextPM
  if token.typ = expected then pure token
  else unexpectedPM token (context ++ " (expected " ++ showType expected ++ ")")

/-- `(t *tree) nextNonComment()`. -/
def nextNonComment : Nat → PM item
  | 0 => oof
  | f + 1 => do
    let tok ← nextPM
    if tok.typ = itemComment then nextNonComment f else pure tok

/-- `panic(str)` recovered at the top level: the raw string becomes the
error (no position prefix). -/
def panicPM (s : String) : PM α := fun _ => .error s

def getTreePM : PM tree := fun t => .ok (t, t)

def modifyTreePM (g : tree → tree) : PM Unit := fun t => .ok ((), g t)

/-! ## Attribute and alias helpers (`parseAttrs`, `parseAlias`, …) -/

/-- Loop body of `parseAttrs`. -/
def parseAttrsLoop (allowedNames : List String) : Nat → List (String × String) → PM (List (String × String))
  | 0, _ => oof
  | f + 1, result => do
    let tok ← nextPM
    if tok.typ = itemIdent then
      if inStringSlice tok.val allowedNames then do
        let _ ← expectPM itemEquals "attribute"
        let attrval ← expectPM itemString "attribute"
        match goUnquote attrval.val with
        | .ok s => parseAttrsLoop allowedNames f (mapInsert result tok.val s)
        | .error e => errorPM e
      else
        unexpectedPM tok ("attributes. allowed: [" ++ String.intercalate " " allowedNames ++ "]")
    else if tok.typ = itemRightDelim then do
      backupPM
      pure result
    else if tok.typ = itemRightDelimEnd then do
      backupPM
      pure result
    else unexpectedPM tok "attributes"

/-- `(t *tree) parseAttrs(allowedNames...)`. -/
def parseAttrs (allowedNames : List String) (f : Nat) : PM (List (String × String)) :=
  parseAttrsLoop allowedNames f []

/-- Loop body of `parseAlias`. -/
def parseAliasLoop (name lastSegment : String) : Nat → PM Unit
  | 0 => oof
  | f + 1 => do
    let nxt ← nextPM
    match nxt.typ with
    | itemDotIdent => parseAliasLoop (name ++ nxt.val) (nxt.val.drop 1) f
    | itemRightDelim => modifyTreePM (fun t =>
        { t with aliases := mapInsert t.aliases lastSegment name })
    | _ => unexpectedPM nxt "alias. (expected \x27\x7d\x27)"

/-- `(t *tree) parseAlias(token)`: records the alias in the context. -/
def parseAlias (_token : item) (f : Nat) : PM Unit := do
  let name ← expectPM itemIdent "alias"
  parseAliasLoop name.val name.val f

/-- `(t *tree) boolAttr(attrs, key, defaultValue)`. -/
def boolAttr (attrs : List (String × String)) (key : String) (defaultValue : Bool) : PM Bool :=
  match lookupKey attrs key with
  | none => pure defaultValue
  | some str =>
    if str = "true" then pure true
    else if str = "false" then pure false
    else errorfPM ("expected \x27true\x27 or \x27false\x27, got " ++ goQuote str)

/-- `(t *tree) parseAutoescape(attrs)`: absent key reads as `""`. -/
def parseAutoescape (attrs : List (String × String)) : PM AutoescapeType :=
  if (lookupKey attrs "autoescape").getD "" = "" then pure AutoescapeUnspecified
  else if (lookupKey attrs "autoescape").getD "" = "contextual" then pure AutoescapeContextual
  else if (lookupKey attrs "autoescape").getD "" = "true" then pure AutoescapeOn
  else if (lookupKey attrs "autoescape").getD "" = "false" then pure AutoescapeOff
  else
    errorfPM ("expected \"true\", \"false\", or \"contextual\" for autoescape, got " ++
      goQuote ((lookupKey attrs "autoescape").getD ""))

/-! ## Expression grammar (`parseExpr` and friends)

Every loop or recursive call of the Go code consumes one unit of fuel;
the concrete runs below never exhaust it. -/

mutual

/-- `(t *tree) parseExpr(prec)`: precedence climbing. -/
def parseExpr (prec : Nat) : Nat → PM Node
  | 0 => oof
  | f + 1 => do
    let n ← parseExprFirstTerm f
    parseExprLoop prec n f

/-- The binary-operator loop inside `parseExpr`: consume operators of
precedence at least `prec`, parsing the right operand one level higher;
on loop exit a ternary-if token is honoured only at `prec = 0`. -/
def parseExprLoop (prec : Nat) (n : Node) : Nat → PM Node
  | 0 => oof
  | f + 1 => do
    let tok ← nextPM
    if isBinaryOp tok.typ ∧ prec ≤ precedence tok.typ then do
      let rhs ← parseExpr (precedence tok.typ + 1) f
      parseExprLoop prec (newBinaryOpNode tok n rhs) f
    else
      if prec = 0 ∧ tok.typ = itemTernIf then parseTernary n f
      else do
        backupPM
        pure n

/-- `(t *tree) parseExprFirstTerm()`. -/
def parseExprFirstTerm : Nat → PM Node
  | 0 => oof
  | f + 1 => do
    let tok ← nextPM
    if isUnaryOp tok then do
      let arg ← parseExpr (precedence tok.typ) f
      pure (newUnaryOpNode tok arg)
    else if tok.typ = itemLeftParen then do
      let n ← parseExpr 0 f
      let _ ← expectPM itemRightParen "soy expression"
      pure n
    else if isValue tok then newValueNode tok f
    else unexpectedPM tok "soy expression"

/-- `(t *tree) parseDataRef(tok)`. -/
def parseDataRef (tok : item) : Nat → PM Node
  | 0 => oof
  | f + 1 => parseDataRefLoop tok.pos (tok.val.drop 1) [] f

/-- Accessor-chain loop of `parseDataRef`. -/
def parseDataRefLoop (pos : Nat) (key : String) (access : List Node) : Nat → PM Node
  | 0 => oof
  | f + 1 => do
    let tok ← nextPM
    match tok.typ with
    | itemQuestionDotIdent =>
      parseDataRefLoop pos key (access ++ [DataRefKeyNode tok.pos true (tok.val.drop 2)]) f
    | itemDotIdent =>
      parseDataRefLoop pos key (access ++ [DataRefKeyNode tok.pos false (tok.val.drop 1)]) f
    | itemQuestionDotIndex =>
      match parseGoInt (tok.val.drop 2) 10 with
      | .ok index => parseDataRefLoop pos key (access ++ [DataRefIndexNode tok.pos true index]) f
      | .error e => errorPM e
    | itemDotIndex =>
      match parseGoInt (tok.val.drop 1) 10 with
      | .ok index => parseDataRefLoop pos key (access ++ [DataRefIndexNode tok.pos false index]) f
      | .error e => errorPM e
    | itemQuestionKey => do
      let e ← parseExpr 0 f
      let _ ← expectPM itemRightBracket "dataref"
      parseDataRefLoop pos key (access ++ [DataRefExprNode tok.pos true e]) f
    | itemLeftBracket => do
      let e ← parseExpr 0 f
      let _ ← expectPM itemRightBracket "dataref"
      parseDataRefLoop pos key (access ++ [DataRefExprNode tok.pos false e]) f
    | _ => do
      backupPM
      pure (DataRefNode pos key access)

/-- `(t *tree) parseListOrMap(token)`: `[` has just been read. -/
def parseListOrMap (token : item) : Nat → PM Node
  | 0 => oof
  | f + 1 => do
    let tk ← nextPM
    match tk.typ with
    | itemColon => do
      let _ ← expectPM itemRightBracket "map literal"
      pure (MapLiteralNode token.pos [])
    | itemRightBracket => pure (ListLiteralNode token.pos [])
    | _ => do
      backupPM
      let firstExpr ← parseExpr 0 f
      let tok ← nextPM
      match tok.typ with
      | itemColon => parseMapLiteral token firstExpr f
      | itemComma => parseListLiteralLoop token [firstExpr] f
      | itemRightBracket => pure (ListLiteralNode token.pos [firstExpr])
      | _ => unexpectedPM tok "list/map literal"

/-- Loop of `parseListLiteral` (first element provided, `,` read). -/
def parseListLiteralLoop (first : item) (items : List Node) : Nat → PM Node
  | 0 => oof
  | f + 1 => do
    let e ← parseExpr 0 f
    let items := items ++ [e]
    let nxt ← nextPM
    if nxt.typ = itemRightBracket then pure (ListLiteralNode first.pos items)
    else if nxt.typ ≠ itemComma then unexpectedPM nxt "parsing value list"
    else parseListLiteralLoop first items f

/-- `(t *tree) parseMapLiteral(first, expr)`: the first key must be a
string literal. -/
def parseMapLiteral (first : item) (expr : Node) : Nat → PM Node
  | 0 => oof
  | f + 1 =>
    match expr with
    | StringNode _ value => parseMapLiteralLoop first [] value f
    | _ => errorfPM ("expected a string as map key, got: " ++ goTypeName expr)

/-- Entry loop of `parseMapLiteral`: accumulate `key : value` pairs into
the mapping (duplicate keys overwrite). -/
def parseMapLiteralLoop (first : item) (items : List (String × Node)) (key : String) : Nat → PM Node
  | 0 => oof
  | f + 1 => do
    let v ← parseExpr 0 f
    let items := mapInsert items key v
    let nxt ← nextPM
    if nxt.typ = itemRightBracket then pure (MapLiteralNode first.pos items)
    else if nxt.typ ≠ itemComma then unexpectedPM nxt "map literal"
    else do
      let tok ← expectPM itemString "map literal"
      match unquoteString tok.val with
      | .ok key' => do
        let _ ← expectPM itemColon "map literal"
        parseMapLiteralLoop first items key' f
      | .error e => errorPM e

/-- `(t *tree) parseTernary(cond)`: `?` already read; after building one
ternary node, a bare following `:` chains it as the condition of
another. -/
def parseTernary (cond : Node) : Nat → PM Node
  | 0 => oof
  | f + 1 => do
    let n1 ← parseExpr 0 f
    let _ ← expectPM itemColon "ternary"
    let n2 ← parseExpr 0 f
    let result := TernNode cond.Position cond n1 n2
    let pk ← peekPM
    if pk.typ = itemColon then do
      let _ ← nextPM
      parseTernary result f
    else pure result

/-- `(t *tree) newValueNode(tok)`.  (Float literals keep their raw text:
float64 decoding is outside the scope of this embedding.) -/
def newValueNode (tok : item) : Nat → PM Node
  | 0 => oof
  | f + 1 =>
    match tok.typ with
    | itemNull => pure (NullNode tok.pos)
    | itemBool => pure (BoolNode tok.pos (tok.val = "true"))
    | itemInteger =>
      let base := if tok.val.startsWith "0x" then 16 else 10
      match parseGoInt tok.val base with
      | .ok value => pure (IntNode tok.pos value)
      | .error e => errorPM e
    | itemFloat => pure (FloatNode tok.pos tok.val)
    | itemString =>
      match unquoteString tok.val with
      | .ok s => pure (StringNode tok.pos s)
      | .error e => errorfPM ("error unquoting " ++ tok.val ++ ": " ++ e)
    | itemLeftBracket => parseListOrMap tok f
    | itemDollarIdent => parseDataRef tok f
    | itemIdent => do
      let nxt ← nextPM
      if nxt.typ ≠ itemLeftParen then newGlobalNode tok nxt f
      else newFunctionNode tok f
    | _ => panicPM "unreachable"

/-- `(t *tree) newGlobalNode(tok, next)`: accumulate the dotted name,
then resolve it against the context globals. -/
def newGlobalNode (tok nxt : item) : Nat → PM Node
  | 0 => oof
  | f + 1 => newGlobalNodeLoop tok.pos tok.val nxt f

/-- Dotted-name loop of `newGlobalNode`, ending with the lookup. -/
def newGlobalNodeLoop (pos : Nat) (name : String) (nxt : item) : Nat → PM Node
  | 0 => oof
  | f + 1 =>
    if nxt.typ = itemDotIdent then do
      let nxt' ← nextPM
      newGlobalNodeLoop pos (name ++ nxt.val) nxt' f
    else do
      backupPM
      let t ← getTreePM
      match lookupKey t.globals name with
      | some value => pure (GlobalNode pos name value)
      | none => errorfPM ("global " ++ goQuote name ++ " is undefined")

/-- `(t *tree) newFunctionNode(tok)`. -/
def newFunctionNode (tok : item) : Nat → PM Node
  | 0 => oof
  | f + 1 => do
    let pk ← peekPM
    if pk.typ = itemRightParen then do
      let _ ← nextPM
      pure (FunctionNode tok.pos tok.val [])
    else newFunctionNodeArgs tok [] f

/-- Argument loop of `newFunctionNode`. -/
def newFunctionNodeArgs (tok : item) (args : List Node) : Nat → PM Node
  | 0 => oof
  | f + 1 => do
    let a ← parseExpr 0 f
    let args := args ++ [a]
    let nxt ← nextPM
    match nxt.typ with
    | itemComma => newFunctionNodeArgs tok args f
    | itemRightParen => pure (FunctionNode tok.pos tok.val args)
    | itemEOF => errorfPM "unexpected eof reading function params"
    | _ => unexpectedPM nxt "reading function params"

end

/-! ## Expression entry points (`ParseExpr`, `parseQuotedExpr`) -/

/-- The zero `item` value sitting in a freshly created lookahead buffer. -/
def zeroItem : item := { typ := itemError, pos := 0, val := "" }

/-- Modelled from the spec: identifier runes of the token source. -/
def isIdentChar (c : Char) : Bool := c.isAlphanum || c = '_'

/-- Modelled from the spec: the keyword/operator word tokens of the
expression token source. -/
def wordToken (s : String) : itemType :=
  if s = "null" then itemNull
  else if s = "true" ∨ s = "false" then itemBool
  else if s = "or" then itemOr
  else if s = "and" then itemAnd
  else if s = "not" then itemNot
  else itemIdent

/-- Modelled from the spec: the expression-mode token source
(`lexExpr`).  It produces the typed, positioned tokens of §3 of the
spec: `$`-prefixed identifiers, dotted accessors (`.name`, `?.name`,
`.N`, `?.N`, `?[`), literals, operators, punctuation, and a final
end-of-input token; a `-` is an arithmetic negate unless it follows a
value-like token.  Lexically broken input yields an error token. -/
def lexExprGo : Nat → List Char → Nat → List item → Bool → List item
  | 0, _, pos, acc, _ => acc ++ [{ typ := itemEOF, pos := pos, val := "" }]
  | _ + 1, [], pos, acc, _ => acc ++ [{ typ := itemEOF, pos := pos, val := "" }]
  | f + 1, c :: cs, pos, acc, prevValue =>
    if c.isWhitespace then lexExprGo f cs (pos + 1) acc prevValue
    else if c = '$' then
      let run := cs.takeWhile isIdentChar
      let val := String.mk ('$' :: run)
      lexExprGo f (cs.drop run.length) (pos + 1 + run.length)
        (acc ++ [{ typ := itemDollarIdent, pos := pos, val := val }]) true
    else if c.isDigit then
      if c = '0' ∧ cs.head? = some 'x' then
        let run := (cs.drop 1).takeWhile (fun d => (digitVal 16 d).isSome)
        let val := String.mk ('0' :: 'x' :: run)
        lexExprGo f (cs.drop (1 + run.length)) (pos + 2 + run.length)
          (acc ++ [{ typ := itemInteger, pos := pos, val := val }]) true
      else
        let run := cs.takeWhile Char.isDigit
        let rest := cs.drop run.length
        match rest with
        | '.' :: d :: _ =>
          if d.isDigit then
            let frac := (rest.drop 1).takeWhile Char.isDigit
            let val := String.mk (c :: run ++ '.' :: frac)
            lexExprGo f (rest.drop (1 + frac.length)) (pos + 2 + run.length + frac.length)
              (acc ++ [{ typ := itemFloat, pos := pos, val := val }]) true
          else
            lexExprGo f rest (pos + 1 + run.length)
              (acc ++ [{ typ := itemInteger, pos := pos, val := String.mk (c :: run) }]) true
        | _ =>
          lexExprGo f rest (pos + 1 + run.length)
            (acc ++ [{ typ := itemInteger, pos := pos, val := String.mk (c :: run) }]) true
    else if c = '\'' then
      let body := cs.takeWhile (fun d => d ≠ '\'')
      match cs.drop body.length with
      | '\'' :: rest =>
        let val := String.mk ('\'' :: body ++ ['\''])
        lexExprGo f rest (pos + 2 + body.length)
          (acc ++ [{ typ := itemString, pos := pos, val := val }]) true
      | _ => acc ++ [{ typ := itemError, pos := pos, val := "unterminated string" }]
    else if c = '.' then
      match cs with
      | d :: _ =>
        if d.isDigit then
          let run := cs.takeWhile Char.isDigit
          lexExprGo f (cs.drop run.length) (pos + 1 + run.length)
            (acc ++ [{ typ := itemDotIndex, pos := pos, val := String.mk ('.' :: run) }]) true
        else if isIdentChar d then
          let run := cs.takeWhile isIdentChar
          lexExprGo f (cs.drop run.length) (pos + 1 + run.length)
            (acc ++ [{ typ := itemDotIdent, pos := pos, val := String.mk ('.' :: run) }]) true
        else acc ++ [{ typ := itemError, pos := pos, val := "bad dot" }]
      | [] => acc ++ [{ typ := itemError, pos := pos, val := "bad dot" }]
    else if c = '?' then
      match cs with
      | '.' :: d :: _ =>
        if d.isDigit then
          let run := (cs.drop 1).takeWhile Char.isDigit
          lexExprGo f (cs.drop (1 + run.length)) (pos + 2 + run.length)
            (acc ++ [{ typ := itemQuestionDotIndex, pos := pos,
                       val := String.mk ('?' :: '.' :: run) }]) true
        else if isIdentChar d then
          let run := (cs.drop 1).takeWhile isIdentChar
          lexExprGo f (cs.drop (1 + run.length)) (pos + 2 + run.length)
            (acc ++ [{ typ := itemQuestionDotIdent, pos := pos,
                       val := String.mk ('?' :: '.' :: run) }]) true
        else acc ++ [{ typ := itemError, pos := pos, val := "bad question dot" }]
      | '[' :: rest =>
        lexExprGo f rest (pos + 2)
          (acc ++ [{ typ := itemQuestionKey, pos := pos, val := "?[" }]) false
      | ':' :: rest =>
        lexExprGo f rest (pos + 2)
          (acc ++ [{ typ := itemElvis, pos := pos, val := "?:" }]) false
      | _ =>
        lexExprGo f cs (pos + 1)
          (acc ++ [{ typ := itemTernIf, pos := pos, val := "?" }]) false
    else if isIdentChar c then
      let run := cs.takeWhile isIdentChar
      let val := String.mk (c :: run)
      lexExprGo f (cs.drop run.length) (pos + 1 + run.length)
        (acc ++ [{ typ := wordToken val, pos := pos, val := val }])
        (wordToken val ≠ itemNot)
    else
      let two : Option (itemType × String) :=
        match c, cs.head? with
        | '=', some '=' => some (itemEq, "==")
        | '!', some '=' => some (itemNotEq, "!=")
        | '>', some '=' => some (itemGte, ">=")
        | '<', some '=' => some (itemLte, "<=")
        | _, _ => none
      match two with
      | some (ty, val) =>
        lexExprGo f (cs.drop 1) (pos + 2)
          (acc ++ [{ typ := ty, pos := pos, val := val }]) false
      | none =>
        let one : Option (itemType × Bool) :=
          match c with
          | '[' => some (itemLeftBracket, false)
          | ']' => some (itemRightBracket, true)
          | '(' => some (itemLeftParen, false)
          | ')' => some (itemRightParen, true)
          | ':' => some (itemColon, false)
          | ',' => some (itemComma, false)
          | '|' => some (itemPipe, false)
          | '=' => some (itemEquals, false)
          | '>' => some (itemGt, false)
          | '<' => some (itemLt, false)
          | '*' => some (itemMul, false)
          | '/' => some (itemDiv, false)
          | '%' => some (itemMod, false)
          | '+' => some (itemAdd, false)
          | '-' => some (if prevValue then itemSub else itemNegate, false)
          | _ => none
        match one with
        | some (ty, pv) =>
          lexExprGo f cs (pos + 1)
            (acc ++ [{ typ := ty, pos := pos, val := String.mk [c] }]) pv
        | none => acc ++ [{ typ := itemError, pos := pos, val := String.mk [c] }]

/-- Modelled from the spec: tokenize a standalone expression string. -/
def lexExpr (str : String) : List item :=
  lexExprGo (str.length + 1) str.toList 0 [] false

/-- Fuel amply covering the call depth of a parse of `ts` (each embedded
call or loop iteration of the Go code consumes one unit). -/
def fuelFor (ts : List item) : Nat := 8 * ts.length + 64

/-- The fresh `tree` that `ParseExpr` / `parseQuotedExpr` build:
`&tree{lex: lexExpr("", str)}` — every other field is zero: no name, no
namespace, no aliases and, importantly, no globals. -/
def mkExprTree (str : String) (ts : List item) : tree :=
  { name := "", text := str, nspace := "", aliases := [], globals := [],
    tok0 := zeroItem, tok1 := zeroItem, peekCount := 0, rest := ts }

/-- `ParseExpr(str)`: parse a standalone expression.  The final tree
state is discarded: nothing requires the tokens to be fully consumed. -/
def ParseExpr (str : String) : Except String Node :=
  let ts := lexExpr str
  match parseExpr 0 (fuelFor ts) (mkExprTree str ts) with
  | .ok (n, _) => .ok n
  | .error e => .error e

/-- Token-level body of `ParseExpr`, taking the token stream the
external token source would produce. -/
def ParseExprTokens (ts : List item) : Except String Node :=
  match parseExpr 0 (fuelFor ts) (mkExprTree "" ts) with
  | .ok (n, _) => .ok n
  | .error e => .error e

/-- `(t *tree) parseQuotedExpr(str)`: ignores the current parse state
and parses `str` in an independent context (fresh `tree`, no globals);
an abort inside the nested parse propagates. -/
def parseQuotedExpr (str : String) (f : Nat) : PM Node := fun t =>
  match parseExpr 0 f (mkExprTree str (lexExpr str)) with
  | .ok (n, _) => .ok (n, t)
  | .error e => .error e

/-- `strings.LastIndex(s, ",")` over the character list (index of the
last comma, if any). -/
def lastCommaIdx : List Char → Nat → Option Nat
  | [], _ => none
  | c :: cs, i =>
    match lastCommaIdx cs (i + 1) with
    | some j => some j
    | none => if c = ',' then some i else none

/-- `strings.Index(s, ".")` over the character list. -/
def firstDotIdx : List Char → Nat → Option Nat
  | [], _ => none
  | c :: cs, i => if c = '.' then some i else firstDotIdx cs (i + 1)

/-! ## Standalone tag parsers (`parseSoyDoc`, `parseNamespace`) -/

/-- Loop of `parseSoyDoc`. -/
def parseSoyDocLoop (token : item) (params : List Node) : Nat → PM Node
  | 0 => oof
  | f + 1 => do
    let nxt ← nextPM
    match nxt.typ with
    | itemText => parseSoyDocLoop token params f
    | itemSoyDocOptionalParam => do
      let ident ← expectPM itemIdent "soydoc param"
      parseSoyDocLoop token (params ++ [SoyDocParamNode nxt.pos ident.val true]) f
    | itemSoyDocParam => do
      let ident ← expectPM itemIdent "soydoc param"
      parseSoyDocLoop token (params ++ [SoyDocParamNode nxt.pos ident.val false]) f
    | itemSoyDocEnd => pure (SoyDocNode token.pos params)
    | _ => unexpectedPM nxt "soydoc"

/-- `(t *tree) parseSoyDoc(token)`. -/
def parseSoyDoc (token : item) (f : Nat) : PM Node :=
  parseSoyDocLoop token [] f

/-- Dotted-name loop of `parseNamespace`, then attributes and the
namespace assignment. -/
def parseNamespaceLoop (token : item) (name : String) : Nat → PM Node
  | 0 => oof
  | f + 1 => do
    let part ← nextPM
    match part.typ with
    | itemDotIdent => parseNamespaceLoop token (name ++ part.val) f
    | _ => do
      backupPM
      let attrs ← parseAttrs ["autoescape"] f
      let autoescape ← parseAutoescape attrs
      let _ ← expectPM itemRightDelim "namespace"
      modifyTreePM (fun t => { t with nspace := name })
      pure (NamespaceNode token.pos name autoescape)

/-- `(t *tree) parseNamespace(token)`: at most one namespace declaration
per file; a second is an immediate failure. -/
def parseNamespace (token : item) (f : Nat) : PM Node := do
  let t ← getTreePM
  if t.nspace ≠ "" then errorfPM "file may have only one namespace declaration"
  else do
    let name ← expectPM itemIdent "namespace"
    parseNamespaceLoop token name.val f

/-! ## Statement grammar (`itemList`, `textOrTag`, `beginTag`, per-tag parsers) -/

mutual

/-- `(t *tree) itemList(until...)`: read text or tags until a
terminator; the list node carries the position of the first token. -/
def itemList (until' : List itemType) : Nat → PM Node
  | 0 => oof
  | f + 1 => do
    let token ← nextPM
    itemListAux until' token.pos [] token f

/-- Loop of `itemList`. -/
def itemListAux (until' : List itemType) (pos : Nat) (acc : List Node) (token : item) :
    Nat → PM Node
  | 0 => oof
  | f + 1 => do
    let nh ← textOrTag token until' f
    match nh with
    | (_, true) => pure (ListNode pos acc)
    | (node?, false) => do
      let acc := match node? with
        | some n => acc ++ [n]
        | none => acc
      let token' ← nextPM
      itemListAux until' pos acc token' f

/-- `(t *tree) textOrTag(token, until)`: skip leading comments, then
detect a terminator (bare, or as a command following `\x7b`), raw text, a
tag, or a SoyDoc block. -/
def textOrTag (token : item) (until' : List itemType) : Nat → PM (Option Node × Bool)
  | 0 => oof
  | f + 1 =>
    if token.typ = itemComment then do
      let token' ← nextPM
      textOrTagMain true token' until' f
    else textOrTagMain false token until' f

/-- `textOrTag` after the comment-skipping loop (`seenComment` records
whether any comment was skipped). -/
def textOrTagMain (seenComment : Bool) (token : item) (until' : List itemType) :
    Nat → PM (Option Node × Bool)
  | 0 => oof
  | f + 1 =>
    if token.typ = itemComment then do
      let token' ← nextPM
      textOrTagMain seenComment token' until' f
    else if isOneOf token.typ until' then pure (none, true)
    else do
      let token2 ← nextPM
      if token.typ = itemLeftDelim ∧ isOneOf token2.typ until' then pure (none, true)
      else do
        backupPM
        match token.typ with
        | itemText => textAccum token.pos token.val seenComment f
        | itemLeftDelim => do
          let n? ← beginTag f
          pure (n?, false)
        | itemSoyDocStart => do
          let n ← parseSoyDoc token f
          pure (some n, false)
        | _ => unexpectedPM token "input"

/-- The raw-text coalescing loop of `textOrTag`: concatenate successive
text tokens, then whitespace-normalize; an empty result emits no node. -/
def textAccum (startPos : Nat) (text : String) (seenComment : Bool) :
    Nat → PM (Option Node × Bool)
  | 0 => oof
  | f + 1 => do
    let nxt ← nextPM
    if nxt.typ = itemText then textAccum startPos (text ++ nxt.val) seenComment f
    else do
      backupPM
      let textvalue := rawtext text seenComment (nxt.typ = itemComment)
      if textvalue.length = 0 then pure (none, false)
      else pure (some (RawTextNode startPos textvalue), false)

/-- `(t *tree) beginTag()`: `\x7b` has just been read; dispatch on the
command token (print is implicit for value- or unary-leading tags). -/
def beginTag : Nat → PM (Option Node)
  | 0 => oof
  | f + 1 => do
    let token ← nextPM
    match token.typ with
    | itemNamespace => do
      let n ← parseNamespace token f
      pure (some n)
    | itemTemplate => do
      let n ← parseTemplate token f
      pure (some n)
    | itemIf => do
      let n ← parseIf token f
      pure (some n)
    | itemMsg => do
      let n ← parseMsg token f
      pure (some n)
    | itemForeach => do
      let n ← parseFor token f
      pure (some n)
    | itemFor => do
      let n ← parseFor token f
      pure (some n)
    | itemSwitch => do
      let n ← parseSwitch token f
      pure (some n)
    | itemCall => do
      let n ← parseCall token f
      pure (some n)
    | itemLiteral => do
      let _ ← expectPM itemRightDelim "literal"
      let literalText ← expectPM itemText "literal"
      let n := RawTextNode literalText.pos literalText.val
      let _ ← expectPM itemLeftDelim "literal"
      let _ ← expectPM itemLiteralEnd "literal"
      let _ ← expectPM itemRightDelim "literal"
      pure (some n)
    | itemCss => do
      let n ← parseCss token f
      pure (some n)
    | itemLog => do
      let _ ← expectPM itemRightDelim "log"
      let logBody ← itemList [itemLogEnd] f
      let _ ← expectPM itemRightDelim "log"
      pure (some (LogNode token.pos logBody))
    | itemDebugger => do
      let _ ← expectPM itemRightDelim "debugger"
      pure (some (DebuggerNode token.pos))
    | itemLet => do
      let n ← parseLet token f
      pure (some n)
    | itemAlias => do
      parseAlias token f
      pure none
    | itemNil => do
      let _ ← expectPM itemRightDelim "special char"
      pure (some (newText token.pos (specialChars token.typ)))
    | itemSpace => do
      let _ ← expectPM itemRightDelim "special char"
      pure (some (newText token.pos (specialChars token.typ)))
    | itemTab => do
      let _ ← expectPM itemRightDelim "special char"
      pure (some (newText token.pos (specialChars token.typ)))
    | itemNewline => do
      let _ ← expectPM itemRightDelim "special char"
      pure (some (newText token.pos (specialChars token.typ)))
    | itemCarriageReturn => do
      let _ ← expectPM itemRightDelim "special char"
      pure (some (newText token.pos (specialChars token.typ)))
    | itemLeftBrace => do
      let _ ← expectPM itemRightDelim "special char"
      pure (some (newText token.pos (specialChars token.typ)))
    | itemRightBrace => do
      let _ ← expectPM itemRightDelim "special char"
      pure (some (newText token.pos (specialChars token.typ)))
    | itemIdent => do
      backupPM
      let n ← parsePrint token f
      pure (some n)
    | itemDollarIdent => do
      backupPM
      let n ← parsePrint token f
      pure (some n)
    | itemNull => do
      backupPM
      let n ← parsePrint token f
      pure (some n)
    | itemBool => do
      backupPM
      let n ← parsePrint token f
      pure (some n)
    | itemFloat => do
      backupPM
      let n ← parsePrint token f
      pure (some n)
    | itemInteger => do
      backupPM
      let n ← parsePrint token f
      pure (some n)
    | itemString => do
      backupPM
      let n ← parsePrint token f
      pure (some n)
    | itemNegate => do
      backupPM
      let n ← parsePrint token f
      pure (some n)
    | itemNot => do
      backupPM
      let n ← parsePrint token f
      pure (some n)
    | itemLeftBracket => do
      backupPM
      let n ← parsePrint token f
      pure (some n)
    | itemPrint => do
      let n ← parsePrint token f
      pure (some n)
    | _ => errorfPM ("not implemented: " ++ showItem token)

/-- `(t *tree) parsePrint(token)`: expression plus `|directive` chain. -/
def parsePrint (token : item) : Nat → PM Node
  | 0 => oof
  | f + 1 => do
    let expr ← parseExpr 0 f
    parsePrintLoop token expr [] f

/-- Directive loop of `parsePrint`. -/
def parsePrintLoop (token : item) (expr : Node) (directives : List Node) : Nat → PM Node
  | 0 => oof
  | f + 1 => do
    let tok ← nextPM
    match tok.typ with
    | itemRightDelim => pure (PrintNode token.pos expr directives)
    | itemPipe => do
      let id ← expectPM itemIdent "print directive"
      let args ← parsePrintArgs [] f
      parsePrintLoop token expr (directives ++ [PrintDirectiveNode tok.pos id.val args]) f
    | _ => unexpectedPM tok "print. (expected \x27|\x27 or \x27\x7d\x27)"

/-- Argument loop of a print directive (`:` first, then `,`). -/
def parsePrintArgs (args : List Node) : Nat → PM (List Node)
  | 0 => oof
  | f + 1 => do
    let nxt ← nextPM
    match nxt.typ with
    | itemColon => do
      let a ← parseExpr 0 f
      parsePrintArgs (args ++ [a]) f
    | itemComma => do
      let a ← parseExpr 0 f
      parsePrintArgs (args ++ [a]) f
    | _ => do
      backupPM
      pure args

/-- `(t *tree) parseLet(token)`. -/
def parseLet (token : item) : Nat → PM Node
  | 0 => oof
  | f + 1 => do
    let name ← expectPM itemDollarIdent "let"
    let nxt ← nextPM
    match nxt.typ with
    | itemColon => do
      let expr ← parseExpr 0 f
      let node := LetValueNode token.pos (name.val.drop 1) expr
      let _ ← expectPM itemRightDelimEnd "let"
      pure node
    | itemRightDelim => do
      let body ← itemList [itemLetEnd] f
      let node := LetContentNode token.pos (name.val.drop 1) body
      let _ ← expectPM itemRightDelim "let"
      pure node
    | _ => unexpectedPM nxt "\x7blet\x7d"

/-- `(t *tree) parseCss(token)`: command text, with an optional
expression before the last comma parsed as a quoted expression. -/
def parseCss (token : item) : Nat → PM Node
  | 0 => oof
  | f + 1 => do
    let cmdText ← expectPM itemText "css"
    let _ ← expectPM itemRightDelim "css"
    let chars := cmdText.val.toList
    match lastCommaIdx chars 0 with
    | none => pure (CssNode token.pos none cmdText.val.trim)
    | some i => do
      let exprText := (String.mk (chars.take i)).trim
      let e ← parseQuotedExpr exprText f
      pure (CssNode token.pos (some e) (String.mk (chars.drop (i + 1))).trim)

/-- `(t *tree) parseCall(token)`: resolve the target name (dotted, bare,
or via attributes), apply namespace/alias rewriting, then params. -/
def parseCall (token : item) : Nat → PM Node
  | 0 => oof
  | f + 1 => do
    let tok ← nextPM
    let templateName ←
      match tok.typ with
      | itemDotIdent => pure tok.val
      | itemIdent => do
        let tok2 ← nextPM
        match tok2.typ with
        | itemDotIdent => parseCallNameLoop (tok.val ++ tok2.val) f
        | _ => do
          backup2PM tok
          pure ""
      | _ => do
        backupPM
        pure ""
    let attrs ← parseAttrs ["name", "data"] f
    let templateName :=
      if templateName = "" then (lookupKey attrs "name").getD "" else templateName
    if templateName = "" then errorfPM "call: template name not found"
    else do
      let t ← getTreePM
      let templateName :=
        if templateName.startsWith "." then t.nspace ++ templateName
        else
          match firstDotIdx templateName.toList 0 with
          | some dot =>
            match lookupKey t.aliases (String.mk (templateName.toList.take dot)) with
            | some aliased => aliased ++ String.mk (templateName.toList.drop dot)
            | none => templateName
          | none => templateName
      let allDataAndNode : Bool × Option Node ←
        match lookupKey attrs "data" with
        | some d =>
          if d = "all" then pure (true, none)
          else do
            let e ← parseQuotedExpr d f
            pure (false, some e)
        | none => pure (false, none)
      let tok2 ← nextPM
      match tok2.typ with
      | itemRightDelimEnd =>
        pure (CallNode token.pos templateName allDataAndNode.1 allDataAndNode.2 [])
      | itemRightDelim => do
        let body ← parseCallParams [] f
        let _ ← expectPM itemLeftDelim "call"
        let _ ← expectPM itemCallEnd "call"
        let _ ← expectPM itemRightDelim "call"
        pure (CallNode token.pos templateName allDataAndNode.1 allDataAndNode.2 body)
      | _ => unexpectedPM tok2 "error scanning \x7bcall\x7d"

/-- Dotted-segment loop of the `\x7bcall fully.qualified.name\x7d` form. -/
def parseCallNameLoop (name : String) : Nat → PM String
  | 0 => oof
  | f + 1 => do
    let tokn ← nextPM
    if tokn.typ = itemDotIdent then parseCallNameLoop (name ++ tokn.val) f
    else do
      backupPM
      pure name

/-- `(t *tree) parseCallParams()`: the four param forms. -/
def parseCallParams (params : List Node) : Nat → PM (List Node)
  | 0 => oof
  | f + 1 => do
    let initial ← nextNonComment f
    let initial ← paramTextSkip initial f
    if initial.typ ≠ itemLeftDelim then unexpectedPM initial "param list (expected \x27\x7b\x27)"
    else do
      let cmd ← nextPM
      if cmd.typ = itemCallEnd then do
        backup2PM initial
        pure params
      else if cmd.typ ≠ itemParam then errorfPM "expected param declaration"
      else do
        let firstIdent ← expectPM itemIdent "param"
        let tok ← nextPM
        match tok.typ with
        | itemColon => do
          let value ← parseExpr 0 f
          let _ ← expectPM itemRightDelimEnd "param"
          parseCallParams (params ++ [CallParamValueNode initial.pos firstIdent.val value]) f
        | itemRightDelim => do
          let value ← itemList [itemParamEnd] f
          let _ ← expectPM itemRightDelim "param"
          parseCallParams (params ++ [CallParamContentNode initial.pos firstIdent.val value]) f
        | itemIdent => do
          backupPM
          parseCallParamAttrs initial firstIdent.val params f
        | itemEquals => do
          backup2PM firstIdent
          parseCallParamAttrs initial "" params f
        | _ => unexpectedPM tok "param. (expected \x27:\x27, \x27\x7d\x27, or \x27=\x27)"

/-- Text/comment skipping before a param: only all-whitespace or comment
content is allowed between params. -/
def paramTextSkip (initial : item) : Nat → PM item
  | 0 => oof
  | f + 1 =>
    if initial.typ = itemText then
      if (rawtext initial.val true true).length ≠ 0 then
        unexpectedPM initial "\x7bcall\x7d, in between \x7bparam\x7d\x27s (orphan content)"
      else do
        let nxt ← nextNonComment f
        paramTextSkip nxt f
    else pure initial

/-- The attribute forms (`key=`/`value=`) of a call param. -/
def parseCallParamAttrs (initial : item) (key : String) (params : List Node) :
    Nat → PM (List Node)
  | 0 => oof
  | f + 1 => do
    let attrs ← parseAttrs ["key", "value", "kind"] f
    let key' ←
      if key = "" then
        match lookupKey attrs "key" with
        | some k => pure k
        | none => errorfPM "param key not found.  (attrs shown above)"
      else pure key
    match lookupKey attrs "value" with
    | none => do
      let _ ← expectPM itemRightDelim "param"
      let value ← itemList [itemParamEnd] f
      let _ ← expectPM itemRightDelim "param"
      parseCallParams (params ++ [CallParamContentNode initial.pos key' value]) f
    | some valueStr => do
      let value ← parseQuotedExpr valueStr f
      let _ ← expectPM itemRightDelimEnd "param"
      parseCallParams (params ++ [CallParamValueNode initial.pos key' value]) f

/-- `(t *tree) parseSwitch(token)`. -/
def parseSwitch (token : item) : Nat → PM Node
  | 0 => oof
  | f + 1 => do
    let switchValue ← parseExpr 0 f
    let _ ← expectPM itemRightDelim "switch"
    parseSwitchLoop token switchValue [] f

/-- Case-collection loop of `parseSwitch` (tokens that are neither
cases, text, nor the end tag are silently skipped, as in the source). -/
def parseSwitchLoop (token : item) (switchValue : Node) (cases : List Node) :
    Nat → PM Node
  | 0 => oof
  | f + 1 => do
    let tok ← nextPM
    match tok.typ with
    | itemLeftDelim => parseSwitchLoop token switchValue cases f
    | itemText =>
      if allSpace tok.val then parseSwitchLoop token switchValue cases f
      else unexpectedPM tok "between switch cases"
    | itemCase => do
      let c ← parseCase tok f
      parseSwitchLoop token switchValue (cases ++ [c]) f
    | itemDefault => do
      let c ← parseCase tok f
      parseSwitchLoop token switchValue (cases ++ [c]) f
    | itemSwitchEnd => do
      let _ ← expectPM itemRightDelim "switch"
      pure (SwitchNode token.pos switchValue cases)
    | _ => parseSwitchLoop token switchValue cases f

/-- `(t *tree) parseCase(token)`. -/
def parseCase (token : item) : Nat → PM Node
  | 0 => oof
  | f + 1 => parseCaseLoop token [] f

/-- Match-value loop of `parseCase`. -/
def parseCaseLoop (token : item) (values : List Node) : Nat → PM Node
  | 0 => oof
  | f + 1 => do
    let values ←
      if token.typ ≠ itemDefault then do
        let v ← parseExpr 0 f
        pure (values ++ [v])
      else pure values
    let tok ← nextPM
    match tok.typ with
    | itemComma => parseCaseLoop token values f
    | itemRightDelim => do
      let body ← itemList [itemCase, itemDefault, itemSwitchEnd] f
      backupPM
      pure (SwitchCaseNode token.pos values body)
    | _ => unexpectedPM tok "switch case"

/-- `(t *tree) parseFor(token)`: common grammar for `for`/`foreach`,
followed by the collection-shape requirement. -/
def parseFor (token : item) : Nat → PM Node
  | 0 => oof
  | f + 1 => do
    let ctx := token.val
    let vartoken ← expectPM itemDollarIdent ctx
    let intoken ← expectPM itemIdent ctx
    if intoken.val ≠ "in" then unexpectedPM intoken "for loop (expected \x27in\x27)"
    else do
      let collection ← parseExpr 0 f
      let _ ← expectPM itemRightDelim "foreach"
      let shapeOk : PM Unit :=
        match token.typ, collection with
        | itemFor, FunctionNode _ fname _ =>
          if fname = "range" then pure () else errorfPM "for: expected to iterate through range()"
        | itemFor, _ => errorfPM "for: expected to iterate through range()"
        | itemForeach, DataRefNode _ _ _ => pure ()
        | itemForeach, _ => errorfPM "foreach: expected to iterate through a variable"
        | _, _ => pure ()
      shapeOk
      let body ← itemList [itemIfempty, itemForeachEnd, itemForEnd] f
      backupPM
      let nxt ← nextPM
      let ifempty : Option Node ←
        if nxt.typ = itemIfempty then do
          let _ ← expectPM itemRightDelim "ifempty"
          let ie ← itemList [itemForeachEnd, itemForEnd] f
          pure (some ie)
        else pure none
      let _ ← expectPM itemRightDelim "/foreach"
      pure (ForNode token.pos (vartoken.val.drop 1) collection body ifempty)

/-- `(t *tree) parseIf(token)`. -/
def parseIf (token : item) : Nat → PM Node
  | 0 => oof
  | f + 1 => parseIfLoop token [] false f

/-- Condition/arm loop of `parseIf`. -/
def parseIfLoop (token : item) (conds : List Node) (isElse : Bool) : Nat → PM Node
  | 0 => oof
  | f + 1 => do
    let condExpr : Option Node ←
      if isElse then pure none
      else do
        let e ← parseExpr 0 f
        pure (some e)
    let _ ← expectPM itemRightDelim "if"
    let body ← itemList [itemElseif, itemElse, itemIfEnd] f
    let conds := conds ++ [IfCondNode token.pos condExpr body]
    backupPM
    let nxt ← nextPM
    match nxt.typ with
    | itemElseif => parseIfLoop token conds isElse f
    | itemElse => parseIfLoop token conds true f
    | itemIfEnd => do
      let _ ← expectPM itemRightDelim "/if"
      pure (IfNode token.pos conds)
    | _ => parseIfLoop token conds isElse f

/-- `(t *tree) parseMsg(token)`: requires the `desc` attribute. -/
def parseMsg (token : item) : Nat → PM Node
  | 0 => oof
  | f + 1 => do
    let attrs ← parseAttrs ["desc", "meaning", "hidden"] f
    match lookupKey attrs "desc" with
    | none => errorfPM "Tag \x27msg\x27 must have a \x27desc\x27 attribute"
    | some desc => do
      let _ ← expectPM itemRightDelim "msg"
      let body ← itemList [itemMsgEnd] f
      let node := MsgNode token.pos desc body
      let _ ← expectPM itemRightDelim "msg"
      pure node

/-- `(t *tree) parseTemplate(token)`: the template name is the current
namespace concatenated with the dot-prefixed identifier. -/
def parseTemplate (token : item) : Nat → PM Node
  | 0 => oof
  | f + 1 => do
    let id ← expectPM itemDotIdent "template tag"
    let attrs ← parseAttrs ["autoescape", "private"] f
    let autoescape ← parseAutoescape attrs
    let private' ← boolAttr attrs "private" false
    let _ ← expectPM itemRightDelim "template tag"
    let t ← getTreePM
    let body ← itemList [itemTemplateEnd] f
    let tmpl := TemplateNode token.pos (t.nspace ++ id.val) body autoescape private'
    let _ ← expectPM itemRightDelim "template tag"
    pure tmpl

end

/-! ## File-level entry point (`Soy`) -/

/-- The nodes of the root list. -/
def rootNodes : Node → List Node
  | ListNode _ ns => ns
  | _ => []

/-- `Soy(name, text, globals)`: parse one file.  The token stream `ts`
is the output of the external token source for `text`; the result is a
`SoyFileNode`, or the single positioned error of the first failure. -/
def Soy (name text : String) (globals : List (String × Value)) (ts : List item) :
    Except String SoyFileNode :=
  let t : tree :=
    { name := name, text := text, nspace := "", aliases := [], globals := globals,
      tok0 := zeroItem, tok1 := zeroItem, peekCount := 0, rest := ts }
  match itemList [itemEOF] (fuelFor ts) t with
  | .ok (root, _) => .ok { Name := name, Text := text, Body := rootNodes root }
  | .error e => .error e

/-! ## Basic lemmas about the parser monad and token plumbing -/

theorem bind_def (m : PM α) (g : α → PM β) : (m >>= g) = pmBind m g := rfl

theorem pure_def (a : α) : (pure a : PM α) = pmPure a := rfl

/-- Inversion of a successful bind. -/
theorem pmBind_ok {m : PM α} {g : α → PM β} {t : tree} {r : β × tree}
    (h : pmBind m g t = .ok r) : ∃ a t', m t = .ok (a, t') ∧ g a t' = .ok r := by
  unfold pmBind at h
  split at h
  · next a t' heq => exact ⟨a, t', heq, h⟩
  · cases h

@[simp] theorem nextRaw_globals (t : tree) : (nextRaw t).2.globals = t.globals := by
  unfold nextRaw
  split
  · rfl
  · split
    · rfl
    · split <;> rfl

@[simp] theorem nextRaw_nspace (t : tree) : (nextRaw t).2.nspace = t.nspace := by
  unfold nextRaw
  split
  · rfl
  · split
    · rfl
    · split <;> rfl

/-! ## Token streams for the concrete runs

The repository's token source (lexer) for full template files is out of
scope; these lists are the token streams it produces for the concrete
inputs of the spec, per the token taxonomy of §3 of the spec (positions
are byte offsets into the input). -/

def tokLD (p : Nat) : item := ⟨itemLeftDelim, p, "\x7b"⟩
def tokRD (p : Nat) : item := ⟨itemRightDelim, p, "\x7d"⟩
def tokEOF (p : Nat) : item := ⟨itemEOF, p, ""⟩

/-- Tokens of `\x7b$UNDEFINED\x7d`. -/
def c4DollarToks : List item :=
  [tokLD 0, ⟨itemDollarIdent, 1, "$UNDEFINED"⟩, tokRD 11, tokEOF 12]

/-- Tokens of `\x7bUNDEFINED\x7d`. -/
def c4BareToks : List item :=
  [tokLD 0, ⟨itemIdent, 1, "UNDEFINED"⟩, tokRD 10, tokEOF 11]

/-- Tokens of `\x7bfor $x in $items\x7dx\x7b/for\x7d`. -/
def c5ForBadToks : List item :=
  [tokLD 0, ⟨itemFor, 1, "for"⟩, ⟨itemDollarIdent, 5, "$x"⟩, ⟨itemIdent, 8, "in"⟩,
   ⟨itemDollarIdent, 11, "$items"⟩, tokRD 17, ⟨itemText, 18, "x"⟩, tokLD 19,
   ⟨itemForEnd, 20, "/for"⟩, tokRD 24, tokEOF 25]

/-- Tokens of `\x7bfor $x in range(3)\x7dx\x7b/for\x7d`. -/
def c5ForGoodToks : List item :=
  [tokLD 0, ⟨itemFor, 1, "for"⟩, ⟨itemDollarIdent, 5, "$x"⟩, ⟨itemIdent, 8, "in"⟩,
   ⟨itemIdent, 11, "range"⟩, ⟨itemLeftParen, 16, "("⟩, ⟨itemInteger, 17, "3"⟩,
   ⟨itemRightParen, 18, ")"⟩, tokRD 19, ⟨itemText, 20, "x"⟩, tokLD 21,
   ⟨itemForEnd, 22, "/for"⟩, tokRD 26, tokEOF 27]

/-- Tokens of `\x7bforeach $x in $items\x7dx\x7b/foreach\x7d`. -/
def c5FeGoodToks : List item :=
  [tokLD 0, ⟨itemForeach, 1, "foreach"⟩, ⟨itemDollarIdent, 9, "$x"⟩, ⟨itemIdent, 12, "in"⟩,
   ⟨itemDollarIdent, 15, "$items"⟩, tokRD 21, ⟨itemText, 22, "x"⟩, tokLD 23,
   ⟨itemForeachEnd, 24, "/foreach"⟩, tokRD 32, tokEOF 33]

/-- Tokens of `\x7bforeach $x in range(3)\x7dx\x7b/foreach\x7d`. -/
def c5FeBadToks : List item :=
  [tokLD 0, ⟨itemForeach, 1, "foreach"⟩, ⟨itemDollarIdent, 9, "$x"⟩, ⟨itemIdent, 12, "in"⟩,
   ⟨itemIdent, 15, "range"⟩, ⟨itemLeftParen, 20, "("⟩, ⟨itemInteger, 21, "3"⟩,
   ⟨itemRightParen, 22, ")"⟩, tokRD 23, ⟨itemText, 24, "x"⟩, tokLD 25,
   ⟨itemForeachEnd, 26, "/foreach"⟩, tokRD 34, tokEOF 35]

/-- Tokens of `\x7bnamespace a\x7d\x7bnamespace b\x7d`. -/
def c7Toks : List item :=
  [tokLD 0, ⟨itemNamespace, 1, "namespace"⟩, ⟨itemIdent, 11, "a"⟩, tokRD 12,
   tokLD 13, ⟨itemNamespace, 14, "namespace"⟩, ⟨itemIdent, 24, "b"⟩, tokRD 25, tokEOF 26]

/-- Tokens of `\x7bnamespace a.b\x7d\x7btemplate .c\x7dhello\x7b/template\x7d`. -/
def c8Toks : List item :=
  [tokLD 0, ⟨itemNamespace, 1, "namespace"⟩, ⟨itemIdent, 11, "a"⟩, ⟨itemDotIdent, 12, ".b"⟩,
   tokRD 14, tokLD 15, ⟨itemTemplate, 16, "template"⟩, ⟨itemDotIdent, 25, ".c"⟩, tokRD 27,
   ⟨itemText, 28, "hello"⟩, tokLD 33, ⟨itemTemplateEnd, 34, "/template"⟩, tokRD 43, tokEOF 44]

/-- Tokens of the two-line input `"\n\x7bBAD\x7d"`. -/
def c9Toks : List item :=
  [⟨itemText, 0, "\n"⟩, tokLD 1, ⟨itemIdent, 2, "BAD"⟩, tokRD 5, tokEOF 6]

/-- The expression-parse context over the tokens of `1 ? 2 : 3`. -/
def c2Tree : tree := mkExprTree "1 ? 2 : 3" (lexExpr "1 ? 2 : 3")

/-- Tokens of the expression `1` followed by the trailing junk `)`. -/
def c10WitToks : List item :=
  [⟨itemInteger, 0, "1"⟩, ⟨itemRightParen, 2, ")"⟩, tokEOF 3]

/-- The final parser state after parsing `1` out of `c10WitToks` (the
trailing `)` has been read and pushed back; the end-of-input token was
never consumed). -/
def c10WitFinal : tree :=
  { name := "", text := "", nspace := "", aliases := [], globals := [],
    tok0 := ⟨itemRightParen, 2, ")"⟩, tok1 := zeroItem, peekCount := 1,
    rest := [tokEOF 3] }

/-! ## Namespace preservation

The attribute plumbing between a tag keyword and its body only touches
the lookahead buffer: it can never change the context's namespace.
These lemmas justify reading the namespace before and after it. -/

def nsPreserved (m : PM α) : Prop :=
  ∀ t a t', m t = .ok (a, t') → t'.nspace = t.nspace

theorem nsPreserved_pure (a : α) : nsPreserved (pmPure a) := by
  intro t b t' h
  simp only [pmPure, Except.ok.injEq, Prod.mk.injEq] at h
  rw [← h.2]

theorem nsPreserved_bind {m : PM α} {g : α → PM β}
    (hm : nsPreserved m) (hg : ∀ a, nsPreserved (g a)) : nsPreserved (pmBind m g) := by
  intro t b t' h
  obtain ⟨a, t1, h1, h2⟩ := pmBind_ok h
  rw [hg a t1 b t' h2, hm t a t1 h1]

theorem nsPreserved_next : nsPreserved nextPM := by
  intro t a t' h
  simp only [nextPM, Except.ok.injEq] at h
  have : t' = (nextRaw t).2 := by rw [h]
  rw [this, nextRaw_nspace]

theorem nsPreserved_backup : nsPreserved backupPM := by
  intro t a t' h
  simp only [backupPM, Except.ok.injEq, Prod.mk.injEq] at h
  rw [← h.2]

theorem nsPreserved_getTree : nsPreserved getTreePM := by
  intro t a t' h
  simp only [getTreePM, Except.ok.injEq, Prod.mk.injEq] at h
  rw [← h.2]

theorem errorf_no_ok (msg : String) (t : tree) (r : α × tree) :
    errorfPM msg t ≠ .ok r := by
  intro h
  cases h

theorem unexpected_no_ok (tok : item) (ctx : String) (t : tree) (r : α × tree) :
    unexpectedPM tok ctx t ≠ .ok r := by
  unfold unexpectedPM
  split <;> intro h <;> cases h

theorem nsPreserved_unexpected (tok : item) (ctx : String) :
    nsPreserved (fun t => unexpectedPM tok ctx t : PM α) := by
  intro t a t' h
  exact absurd h (unexpected_no_ok tok ctx t (a, t'))

theorem nsPreserved_expect (ty : itemType) (ctx : String) : nsPreserved (expectPM ty ctx) := by
  have hdef : expectPM ty ctx = pmBind nextPM (fun token =>
      if token.typ = ty then pmPure token
      else unexpectedPM token (ctx ++ " (expected " ++ showType ty ++ ")")) := rfl
  rw [hdef]
  refine nsPreserved_bind nsPreserved_next fun a => ?_
  by_cases hc : a.typ = ty
  · rw [if_pos hc]
    exact nsPreserved_pure a
  · rw [if_neg hc]
    exact nsPreserved_unexpected a _

theorem nsPreserved_attrsLoop (f : Nat) :
    ∀ (allowed : List String) (acc : List (String × String)),
      nsPreserved (parseAttrsLoop allowed f acc) := by
  induction f with
  | zero =>
    intro allowed acc t a t' h
    cases h
  | succ f ih =>
    intro allowed acc t a t' h
    simp only [parseAttrsLoop, bind_def, pure_def] at h
    obtain ⟨tok, t1, h1, h2⟩ := pmBind_ok h
    rw [← nsPreserved_next t tok t1 h1]
    by_cases hid : tok.typ = itemIdent
    · rw [if_pos hid] at h2
      by_cases hin : inStringSlice tok.val allowed = true
      · rw [if_pos hin] at h2
        obtain ⟨eq1, t2, he1, h3⟩ := pmBind_ok h2
        rw [← nsPreserved_expect itemEquals "attribute" t1 eq1 t2 he1]
        obtain ⟨av, t3, he2, h4⟩ := pmBind_ok h3
        rw [← nsPreserved_expect itemString "attribute" t2 av t3 he2]
        rcases hgu : goUnquote av.val with e2 | s3 <;> simp only [hgu] at h4
        · exact absurd h4 (errorf_no_ok e2 t3 (a, t'))
        · exact ih allowed (mapInsert acc tok.val s3) t3 a t' h4
      · rw [if_neg hin] at h2
        exact absurd h2 (unexpected_no_ok tok _ t1 (a, t'))
    · rw [if_neg hid] at h2
      by_cases hrd : tok.typ = itemRightDelim
      · rw [if_pos hrd] at h2
        obtain ⟨u, t2, hb, hp⟩ := pmBind_ok h2
        rw [← nsPreserved_backup t1 u t2 hb]
        exact nsPreserved_pure acc t2 a t' hp
      · rw [if_neg hrd] at h2
        by_cases hrde : tok.typ = itemRightDelimEnd
        · rw [if_pos hrde] at h2
          obtain ⟨u, t2, hb, hp⟩ := pmBind_ok h2
          rw [← nsPreserved_backup t1 u t2 hb]
          exact nsPreserved_pure acc t2 a t' hp
        · rw [if_neg hrde] at h2
          exact absurd h2 (unexpected_no_ok tok _ t1 (a, t'))

theorem nsPreserved_attrs (allowed : List String) (f : Nat) :
    nsPreserved (parseAttrs allowed f) :=
  nsPreserved_attrsLoop f allowed []

theorem nsPreserved_autoescape (attrs : List (String × String)) :
    nsPreserved (parseAutoescape attrs) := by
  intro t a t' h
  unfold parseAutoescape at h
  by_cases h1 : (lookupKey attrs "autoescape").getD "" = ""
  · rw [if_pos h1] at h
    exact nsPreserved_pure _ t a t' h
  · rw [if_neg h1] at h
    by_cases h2 : (lookupKey attrs "autoescape").getD "" = "contextual"
    · rw [if_pos h2] at h
      exact nsPreserved_pure _ t a t' h
    · rw [if_neg h2] at h
      by_cases h3 : (lookupKey attrs "autoescape").getD "" = "true"
      · rw [if_pos h3] at h
        exact nsPreserved_pure _ t a t' h
      · rw [if_neg h3] at h
        by_cases h4 : (lookupKey attrs "autoescape").getD "" = "false"
        · rw [if_pos h4] at h
          exact nsPreserved_pure _ t a t' h
        · rw [if_neg h4] at h
          exact absurd h (errorf_no_ok _ t (a, t'))

theorem nsPreserved_boolAttr (attrs : List (String × String)) (key : String) (d : Bool) :
    nsPreserved (boolAttr attrs key d) := by
  intro t a t' h
  unfold boolAttr at h
  rcases hk : lookupKey attrs key with _ | str <;> simp only [hk] at h
  · exact nsPreserved_pure _ t a t' h
  · by_cases h1 : str = "true"
    · rw [if_pos h1] at h
      exact nsPreserved_pure _ t a t' h
    · rw [if_neg h1] at h
      by_cases h2 : str = "false"
      · rw [if_pos h2] at h
        exact nsPreserved_pure _ t a t' h
      · rw [if_neg h2] at h
        exact absurd h (errorf_no_ok _ t (a, t'))

/-- With an empty globals table, the dotted-name loop of
`newGlobalNode` can only abort: the final lookup never succeeds. -/
theorem newGlobalNodeLoop_no_globals (f : Nat) :
    ∀ (pos : Nat) (name : String) (nxt : item) (s : tree), s.globals = [] →
      ∃ e, newGlobalNodeLoop pos name nxt f s = .error e := by
  induction f with
  | zero => exact fun pos name nxt s _ => ⟨"out of fuel", rfl⟩
  | succ f ih =>
    intro pos name nxt s h
    simp only [newGlobalNodeLoop, bind_def, pure_def]
    split
    · rcases hnr : nextRaw s with ⟨tok, s'⟩
      have hg : s'.globals = [] := by
        have := nextRaw_globals s
        rw [hnr] at this
        rw [this, h]
      obtain ⟨e, he⟩ := ih pos (name ++ nxt.val) tok s' hg
      exact ⟨e, by simp [pmBind, nextPM, hnr, he]⟩
    · refine ⟨errMsg { s with peekCount := s.peekCount + 1 }
        ("global " ++ goQuote name ++ " is undefined"), ?_⟩
      simp [pmBind, backupPM, getTreePM, h, lookupKey, errorfPM]

/-! ## The claims -/

/-- C1: the expression parser is precedence climbing over the table
unary-not/negate = 6, `* / %` = 5, `+ -` = 4, comparisons = 3, `or` = 2,
`and` = 1, elvis = 0 (higher binds tighter), with the right operand of a
binary operator parsed one level above the operator (left-associative
climbing, visible in `parseExprLoop`); `1 + 2 * 3` parses to
`Add(1, Mul(2, 3))` and never to a multiplication-rooted tree, and
`1 - 2 - 3` associates left. -/
theorem c1_precedence_climbing :
    (precedence itemNot = 6 ∧ precedence itemNegate = 6 ∧
     precedence itemMul = 5 ∧ precedence itemDiv = 5 ∧ precedence itemMod = 5 ∧
     precedence itemAdd = 4 ∧ precedence itemSub = 4 ∧
     precedence itemEq = 3 ∧ precedence itemNotEq = 3 ∧ precedence itemGt = 3 ∧
     precedence itemGte = 3 ∧ precedence itemLt = 3 ∧ precedence itemLte = 3 ∧
     precedence itemOr = 2 ∧ precedence itemAnd = 1 ∧ precedence itemElvis = 0) ∧
    (match ParseExpr "1 + 2 * 3" with
      | .ok (AddNode "+" 2 (IntNode 0 1) (MulNode "*" 6 (IntNode 4 2) (IntNode 8 3))) => true
      | _ => false) = true ∧
    (match ParseExpr "1 + 2 * 3" with
      | .ok (MulNode _ _ _ _) => false
      | _ => true) = true ∧
    (match ParseExpr "1 - 2 - 3" with
      | .ok (SubNode "-" 6 (SubNode "-" 2 (IntNode 0 1) (IntNode 4 2)) (IntNode 8 3)) => true
      | _ => false) = true := by
  decide!

/-- C2: a ternary-if token triggers ternary parsing only at minimum
precedence 0: at any positive precedence the parse of `1 ? 2 : 3` stops
before the `?` and yields just `1`, while at precedence 0 it yields the
ternary node; and a bare `:` after a built ternary chains it as the
condition of a further ternary, so `1 ? 2 : 3 : 4 : 5` parses to
`Tern(Tern(1, 2, 3), 4, 5)`. -/
theorem c2_ternary_outermost_and_chaining :
    (∀ p : Nat, p ≠ 0 →
      Except.map Prod.fst (parseExpr p 50 c2Tree) = .ok (IntNode 0 1)) ∧
    (match parseExpr 0 50 c2Tree with
      | .ok (TernNode 0 (IntNode 0 1) (IntNode 4 2) (IntNode 8 3), _) => true
      | _ => false) = true ∧
    (match ParseExpr "1 ? 2 : 3 : 4 : 5" with
      | .ok (TernNode 0 (TernNode 0 (IntNode 0 1) (IntNode 4 2) (IntNode 8 3))
          (IntNode 12 4) (IntNode 16 5)) => true
      | _ => false) = true := by
  refine ⟨?_, by decide!, by decide!⟩
  intro p hp
  cases p with
  | zero => exact absurd rfl hp
  | succ q => rfl

/-- Witness for C2: at minimum precedence 1 the ternary of `1 ? 2 : 3`
is not consumed. -/
theorem c2_witness :
    Except.map Prod.fst (parseExpr 1 50 c2Tree) = .ok (IntNode 0 1) :=
  c2_ternary_outermost_and_chaining.1 1 (by decide)

/-- C6: on `[`, `[]` is an empty list literal and `[:]` an empty map
literal; a first expression followed by `:` starts a map literal whose
keys must be string literals (`[1: 'a']` fails with the map-key error,
`['a': 1]` is a one-entry map, a non-string later key also fails), and
entries are accumulated keyed by the literal string value with duplicate
keys overwriting earlier entries. -/
theorem c6_list_map_literals :
    (match ParseExpr "[]" with
      | .ok (ListLiteralNode 0 []) => true
      | _ => false) = true ∧
    (match ParseExpr "[:]" with
      | .ok (MapLiteralNode 0 []) => true
      | _ => false) = true ∧
    (match ParseExpr "[\x27a\x27: 1]" with
      | .ok (MapLiteralNode 0 [("a", IntNode 6 1)]) => true
      | _ => false) = true ∧
    (match ParseExpr "[1: \x27a\x27]" with
      | .error "template :1:3: expected a string as map key, got: *parse.IntNode" => true
      | _ => false) = true ∧
    (match ParseExpr "[\x27a\x27: 1, 2: 3]" with
      | .error _ => true
      | _ => false) = true ∧
    (match ParseExpr "[\x27a\x27: 1, \x27a\x27: 2]" with
      | .ok (MapLiteralNode 0 [("a", IntNode 14 2)]) => true
      | _ => false) = true ∧
    (match ParseExpr "[\x27a\x27: 1, \x27b\x27: 2, \x27a\x27: 3]" with
      | .ok (MapLiteralNode 0 [("a", IntNode 22 3), ("b", IntNode 14 2)]) => true
      | _ => false) = true := by
  decide!

/-- C10: the standalone expression parse does not require the input to
be consumed: whenever the core expression parse succeeds, its node is
returned with no error regardless of the tokens left in the final state,
and concretely `1 + 2 ) junk` parses to `Add(1, 2)` with the trailing
tokens silently ignored. -/
theorem c10_parse_expr_trailing :
    (∀ (ts : List item) (n : Node) (t' : tree),
      parseExpr 0 (fuelFor ts) (mkExprTree "" ts) = .ok (n, t') →
      ParseExprTokens ts = .ok n) ∧
    (match ParseExpr "1 + 2 ) junk" with
      | .ok (AddNode "+" 2 (IntNode 0 1) (IntNode 4 2)) => true
      | _ => false) = true := by
  refine ⟨?_, by decide!⟩
  intro ts n t' h
  unfold ParseExprTokens
  rw [h]

/-- Witness for C10: parsing `1` with a trailing `)` succeeds, returning
the integer node while the unconsumed tokens remain in the final state. -/
theorem c10_witness : ParseExprTokens c10WitToks = .ok (IntNode 0 1) :=
  c10_parse_expr_trailing.1 c10WitToks (IntNode 0 1) c10WitFinal rfl

/-- C3: `parseQuotedExpr` builds an independent context whose globals
table is empty; under an empty globals table, resolving any global
reference (`newGlobalNode`, a bare identifier not followed by `(`)
always aborts; and the quoted expression `GLOB` concretely fails with
the undefined-global error from any ambient parse state. -/
theorem c3_quoted_expr_no_globals :
    (∀ str : String, (mkExprTree str (lexExpr str)).globals = []) ∧
    (∀ (tok nxt : item) (f : Nat) (s : tree), s.globals = [] →
      ∃ e, newGlobalNode tok nxt f s = .error e) ∧
    (∀ s : tree, parseQuotedExpr "GLOB" 40 s =
      .error "template :1:5: global \"GLOB\" is undefined") := by
  refine ⟨fun _ => rfl, ?_, fun s => rfl⟩
  intro tok nxt f s h
  cases f with
  | zero => exact ⟨"out of fuel", rfl⟩
  | succ f => exact newGlobalNodeLoop_no_globals f tok.pos tok.val nxt s h

/-- Witness for C3: a global reference under an empty globals table
(the context `parseQuotedExpr` builds) aborts. -/
theorem c3_witness :
    ∃ e, newGlobalNode ⟨itemIdent, 0, "X"⟩ ⟨itemEOF, 1, ""⟩ 5 (mkExprTree "X" []) = .error e :=
  c3_quoted_expr_no_globals.2.1 ⟨itemIdent, 0, "X"⟩ ⟨itemEOF, 1, ""⟩ 5 (mkExprTree "X" []) rfl

/-- C4 counterexample: with `UNDEFINED` absent from the globals table,
the parse of `\x7b$UNDEFINED\x7d` does NOT fail with an undefined-global
error — `$UNDEFINED` is a `$`-prefixed identifier, hence a data
reference, and the file parses successfully to a print of that data
reference.  This refutes the claim's concrete example. -/
theorem c4_counterexample :
    (match Soy "test" "\x7b$UNDEFINED\x7d" [] c4DollarToks with
      | .ok ⟨"test", _, [PrintNode 1 (DataRefNode 1 "UNDEFINED" []) []]⟩ => true
      | _ => false) = true := by
  decide!

/-- C4 (amended): a bare identifier not followed by `(` is resolved as a
global against the context's globals table at parse time: if the name is
bound the result is a global node carrying the looked-up value, if it is
absent the parse aborts with the undefined-global error; concretely
`\x7bUNDEFINED\x7d` (bare identifier, not `\x7b$UNDEFINED\x7d`) fails
with the undefined-global error when `UNDEFINED` is absent and parses to
a print of a global node carrying the value when present. -/
theorem c4_global_resolution :
    (∀ (tok nxt : item) (f : Nat) (s : tree) (v : Value),
      lookupKey s.globals tok.val = some v → nxt.typ ≠ itemDotIdent →
      newGlobalNode tok nxt (f + 2) s =
        .ok (GlobalNode tok.pos tok.val v, { s with peekCount := s.peekCount + 1 })) ∧
    (∀ (tok nxt : item) (f : Nat) (s : tree),
      lookupKey s.globals tok.val = none → nxt.typ ≠ itemDotIdent →
      newGlobalNode tok nxt (f + 2) s =
        .error (errMsg { s with peekCount := s.peekCount + 1 }
          ("global " ++ goQuote tok.val ++ " is undefined"))) ∧
    (match Soy "test" "\x7bUNDEFINED\x7d" [] c4BareToks with
      | .error "template test:1:11: global \"UNDEFINED\" is undefined" => true
      | _ => false) = true ∧
    (match Soy "test" "\x7bUNDEFINED\x7d" [("UNDEFINED", Value.intV 42)] c4BareToks with
      | .ok ⟨"test", _, [PrintNode 1 (GlobalNode 1 "UNDEFINED" (Value.intV 42)) []]⟩ => true
      | _ => false) = true ∧
    (match Soy "test" "\x7bUNDEFINED\x7d" [("UNDEFINED", Value.strV "s")] c4BareToks with
      | .ok ⟨"test", _, [PrintNode 1 (GlobalNode 1 "UNDEFINED" (Value.strV "s")) []]⟩ => true
      | _ => false) = true := by
  refine ⟨?_, ?_, by decide!, by decide!, by decide!⟩
  · intro tok nxt f s v hv hnd
    show newGlobalNodeLoop tok.pos tok.val nxt (f + 1) s = _
    simp only [newGlobalNodeLoop, bind_def, pure_def]
    rw [if_neg hnd]
    simp [pmBind, backupPM, getTreePM, pmPure, hv]
  · intro tok nxt f s hv hnd
    show newGlobalNodeLoop tok.pos tok.val nxt (f + 1) s = _
    simp only [newGlobalNodeLoop, bind_def, pure_def]
    rw [if_neg hnd]
    simp [pmBind, backupPM, getTreePM, errorfPM, hv]

/-- A context whose globals bind `G`. -/
def c4WitTree : tree := { mkExprTree "" [] with globals := [("G", Value.intV 1)] }

/-- Witness for C4 (amended): resolving the bound global `G` yields a
global node carrying its value. -/
theorem c4_witness :
    newGlobalNode ⟨itemIdent, 0, "G"⟩ ⟨itemEOF, 1, ""⟩ 7 c4WitTree =
      .ok (GlobalNode 0 "G" (Value.intV 1),
        { c4WitTree with peekCount := c4WitTree.peekCount + 1 }) :=
  c4_global_resolution.1 ⟨itemIdent, 0, "G"⟩ ⟨itemEOF, 1, ""⟩ 5 c4WitTree
    (Value.intV 1) rfl (by decide)

/-- C5: after the collection expression of a `for`/`foreach` tag is
parsed, the shape requirement is enforced: `for` over the data reference
`$items` is a parse-time failure, `for` over `range(3)` succeeds,
`foreach` over `$items` succeeds, and `foreach` over the syntactically
valid call `range(3)` is a parse-time failure. -/
theorem c5_for_foreach_shape :
    (match Soy "test" "\x7bfor $x in $items\x7dx\x7b/for\x7d" [] c5ForBadToks with
      | .error "template test:1:18: for: expected to iterate through range()" => true
      | _ => false) = true ∧
    (match Soy "test" "\x7bfor $x in range(3)\x7dx\x7b/for\x7d" [] c5ForGoodToks with
      | .ok ⟨"test", _, [ForNode 1 "x" (FunctionNode 11 "range" [IntNode 17 3])
          (ListNode 20 [RawTextNode 20 "x"]) none]⟩ => true
      | _ => false) = true ∧
    (match Soy "test" "\x7bforeach $x in $items\x7dx\x7b/foreach\x7d" [] c5FeGoodToks with
      | .ok ⟨"test", _, [ForNode 1 "x" (DataRefNode 15 "items" [])
          (ListNode 22 [RawTextNode 22 "x"]) none]⟩ => true
      | _ => false) = true ∧
    (match Soy "test" "\x7bforeach $x in range(3)\x7dx\x7b/foreach\x7d" [] c5FeBadToks with
      | .error "template test:1:24: foreach: expected to iterate through a variable" => true
      | _ => false) = true := by
  decide!

/-- C7: the namespace is set at most once — whenever the context already
carries a nonempty namespace, `parseNamespace` aborts immediately with
the duplicate-namespace error (whatever the fuel and pending tokens);
concretely a file with two namespace declarations fails. -/
theorem c7_single_namespace :
    (∀ (token : item) (f : Nat) (s : tree), s.nspace ≠ "" →
      parseNamespace token f s =
        .error (errMsg s "file may have only one namespace declaration")) ∧
    (match Soy "test" "\x7bnamespace a\x7d\x7bnamespace b\x7d" [] c7Toks with
      | .error "template test:1:15: file may have only one namespace declaration" => true
      | _ => false) = true := by
  refine ⟨?_, by decide!⟩
  intro token f s h
  simp only [parseNamespace, bind_def]
  simp [pmBind, getTreePM, h, errorfPM]

/-- A context already holding the namespace `a`. -/
def c7WitTree : tree := { mkExprTree "" [] with nspace := "a" }

/-- Witness for C7: a second namespace declaration aborts. -/
theorem c7_witness :
    parseNamespace zeroItem 3 c7WitTree =
      .error (errMsg c7WitTree "file may have only one namespace declaration") :=
  c7_single_namespace.1 zeroItem 3 c7WitTree (by decide)

/-- C8: every template node built by `parseTemplate` is named by
concatenating the context's current namespace (as it stood at the
template tag) with the template's dot-prefixed identifier; concretely
`\x7bnamespace a.b\x7d\x7btemplate .c\x7dhello\x7b/template\x7d` parses
to a namespace node named `a.b` followed by a template node named
`a.b.c` whose body is the single raw-text node `hello`. -/
theorem c8_template_namespace_qualified :
    (∀ (token : item) (f : Nat) (s : tree) (n : Node) (s' : tree),
      parseTemplate token f s = .ok (n, s') →
      ∃ (idv : String) (body : Node) (ae : AutoescapeType) (priv : Bool),
        n = TemplateNode token.pos (s.nspace ++ idv) body ae priv) ∧
    (match Soy "test" "\x7bnamespace a.b\x7d\x7btemplate .c\x7dhello\x7b/template\x7d"
        [] c8Toks with
      | .ok ⟨"test", _, [NamespaceNode 1 "a.b" AutoescapeUnspecified,
          TemplateNode 16 "a.b.c" (ListNode 28 [RawTextNode 28 "hello"])
            AutoescapeUnspecified false]⟩ => true
      | _ => false) = true := by
  refine ⟨?_, by decide!⟩
  intro token f s n s' h
  cases f with
  | zero => cases h
  | succ f =>
    simp only [parseTemplate, bind_def, pure_def] at h
    obtain ⟨id, t1, h1, h⟩ := pmBind_ok h
    obtain ⟨attrs, t2, h2, h⟩ := pmBind_ok h
    obtain ⟨ae, t3, h3, h⟩ := pmBind_ok h
    obtain ⟨priv, t4, h4, h⟩ := pmBind_ok h
    obtain ⟨x5, t5, h5, h⟩ := pmBind_ok h
    obtain ⟨tt, t6, h6, h⟩ := pmBind_ok h
    obtain ⟨body, t7, h7, h⟩ := pmBind_ok h
    obtain ⟨x8, t8, h8, h⟩ := pmBind_ok h
    have hn : n = TemplateNode token.pos (tt.nspace ++ id.val) body ae priv := by
      simp only [pmPure, Except.ok.injEq, Prod.mk.injEq] at h
      exact h.1.symm
    have htt : tt = t5 := by
      simp only [getTreePM, Except.ok.injEq, Prod.mk.injEq] at h6
      exact h6.1.symm
    have hns : t5.nspace = s.nspace := by
      rw [nsPreserved_expect itemRightDelim "template tag" t4 x5 t5 h5,
        nsPreserved_boolAttr attrs "private" false t3 priv t4 h4,
        nsPreserved_autoescape attrs t2 ae t3 h3,
        nsPreserved_attrs ["autoescape", "private"] f t1 attrs t2 h2,
        nsPreserved_expect itemDotIdent "template tag" s id t1 h1]
    exact ⟨id.val, body, ae, priv, by rw [hn, htt, hns]⟩

/-- A context whose namespace is `a.b`, about to read `.c` and an empty
template body. -/
def c8WitTree : tree :=
  { name := "", text := "", nspace := "a.b", aliases := [], globals := [],
    tok0 := zeroItem, tok1 := zeroItem, peekCount := 0,
    rest := [⟨itemDotIdent, 0, ".c"⟩, tokRD 2, tokLD 3,
             ⟨itemTemplateEnd, 4, "/template"⟩, tokRD 13] }

/-- Witness for C8: the template parsed in the `a.b` context is
namespace-qualified. -/
theorem c8_witness :
    ∃ (idv : String) (body : Node) (ae : AutoescapeType) (priv : Bool),
      TemplateNode 16 "a.b.c" (ListNode 3 []) AutoescapeUnspecified false =
        TemplateNode 16 (c8WitTree.nspace ++ idv) body ae priv :=
  c8_template_namespace_qualified.1 ⟨itemTemplate, 16, "template"⟩ 10 c8WitTree
    (TemplateNode 16 "a.b.c" (ListNode 3 []) AutoescapeUnspecified false)
    ⟨"", "", "a.b", [], [], ⟨itemRightDelim, 13, "\x7d"⟩, ⟨itemError, 0, ""⟩, 0, []⟩
    (by rfl)

/-- C9: `errorf` produces the single positioned error value
`template <name>:<line>:<column>: <message>`, with line and column
computed from the byte offset of the active token — `token[0]`, or
`token[peekCount-1]` when tokens have been pushed back (`activeTok`);
every file-level parse returns either one tree or one error value, never
both; and concretely a failure on line two of a two-line input is
reported at the pushed-back token's offset as line 2, column 5. -/
theorem c9_error_single_format :
    (∀ (t : tree) (msg : String),
      (errorfPM msg : PM Node) t =
        .error ("template " ++ t.name ++ ":" ++
          toString (lineNumber t.text (activeTok t).pos) ++ ":" ++
          toString (columnNumber t.text (activeTok t).pos) ++ ": " ++ msg)) ∧
    (∀ (name text : String) (gs : List (String × Value)) (ts : List item),
      (∃ fl, Soy name text gs ts = .ok fl) ∨ ∃ e, Soy name text gs ts = .error e) ∧
    (match Soy "test" "\n\x7bBAD\x7d" [] c9Toks with
      | .error "template test:2:5: global \"BAD\" is undefined" => true
      | _ => false) = true := by
  refine ⟨fun t msg => rfl, ?_, by decide!⟩
  intro name text gs ts
  rcases h : itemList [itemEOF] (fuelFor ts)
      { name := name, text := text, nspace := "", aliases := [], globals := gs,
        tok0 := zeroItem, tok1 := zeroItem, peekCount := 0, rest := ts } with e | ⟨root, s2⟩
  · exact Or.inr ⟨e, by unfold Soy; simp only [h]⟩
  · exact Or.inl ⟨{ Name := name, Text := text, Body := rootNodes root },
      by unfold Soy; simp only [h]⟩

end SoyParse
